import Mathlib

/-!
# Profanity: event registry and preferences store

A shallow embedding of `src/event.c` (the publish/subscribe registry) and of
`src/config/preferences.c` (the key-file backed preferences store), with the
properties of the specification stated over it.

GLib containers are embedded by the values they hold: a `GSList *` by the data
of the nodes reachable from it, a `GHashTable *` by its (key, value) pairs.
-/

namespace Profanity

/-! ## event.c : data model -/

/-- C `gboolean`, a `gint`; only `TRUE` and `FALSE` are named. -/
abbrev gboolean := Int

/-- GLib `TRUE`. -/
def TRUE : gboolean := 1

/-- GLib `FALSE`. -/
def FALSE : gboolean := 0

/-- C `void *`: an opaque machine word. -/
abbrev gpointer := Nat

/-- The address of a listener, `void (*)(void *, void *, void *)`. The registry
never looks inside a listener: it only stores the address and calls it. -/
abbrev EVENT_FUNC := Nat

/-- What a `GSList *` leads to: the data of its nodes in order (`NULL` is the
list without nodes), or nodes that `g_slist_free` has already released. -/
inductive GSListPtr where
  | list (data : List EVENT_FUNC)
  | dangling
  deriving DecidableEq, Repr

/-- The global `GHashTable *listeners`, keyed by string contents
(`g_str_hash`, `g_str_equal`): its pairs, each key at most once in practice;
look-ups take the first pair with the key. -/
abbrev GHashTable := List (String × GSListPtr)

/-- Memory faults of the C program that the value model can detect. -/
inductive Fault where
  | use_after_free
  | invalid_free
  deriving DecidableEq, Repr

/-- What the pointer `name` handed to `event_listen` points to, as `g_free`
sees it: a live block from `g_malloc`, or anything else (a string literal, a
buffer on the stack), which `g_free` must not be given. -/
inductive NamePtr where
  | allocated
  | not_allocated
  deriving DecidableEq, Repr

/-- One executed `callback(arg0, arg1, arg2)`. -/
structure Call where
  func : EVENT_FUNC
  arg0 : gpointer
  arg1 : gpointer
  arg2 : gpointer
  deriving DecidableEq, Repr

/-- Program state seen by event.c: the global `listeners` and the listener
calls executed so far, oldest first. -/
structure World where
  listeners : GHashTable
  calls : List Call
  deriving DecidableEq, Repr

/-- A `va_list` after `va_start(arg_list, arg)`: slot `k` is what the `k`-th
following `va_arg(arg_list, void *)` yields. For the call
`event_trigger(name, v0, v1, v2)` slots 0 and 1 are `v1` and `v2`; the slots
after them were not written by the caller. -/
abbrev va_list := Nat → gpointer

/-- `va_arg(ap, void *)`: the next slot, and the advanced list. -/
def va_arg (ap : va_list) : gpointer × va_list :=
  (ap 0, fun k => ap (k + 1))

/-- The `va_list` of a call that passes exactly `v1` and `v2` after the named
argument; `beyond` is what lies in the argument area after them. -/
def va_start (v1 v2 : gpointer) (beyond : Nat → gpointer) : va_list
  | 0 => v1
  | 1 => v2
  | k + 2 => beyond k

/-! ## event.c : GLib operations -/

/-- `g_hash_table_new_full(...)`: the table without pairs. -/
def g_hash_table_new_full : GHashTable := []

/-- `g_hash_table_lookup(table, key)`: the value of the pair with that key, or
`NULL` when there is none. -/
def g_hash_table_lookup (table : GHashTable) (key : String) : GSListPtr :=
  match table with
  | [] => .list []
  | (k, v) :: rest => if k = key then v else g_hash_table_lookup rest key

/-- Whether the table has a pair with that key. -/
def g_hash_table_contains (table : GHashTable) (key : String) : Bool :=
  match table with
  | [] => false
  | (k, _) :: rest => if k = key then true else g_hash_table_contains rest key

/-- The table with `v` as the value under `key`: in place of the old value when
the key is present, as a new pair otherwise. -/
def store (table : GHashTable) (key : String) (v : GSListPtr) : GHashTable :=
  match table with
  | [] => [(key, v)]
  | (k, old) :: rest =>
    if k = key then (k, v) :: rest else (k, old) :: store rest key v

/-- `g_slist_append(list, data)` on intact nodes: a node with `data` linked
after the last node. -/
def g_slist_append (list : List EVENT_FUNC) (data : EVENT_FUNC) : List EVENT_FUNC :=
  list ++ [data]

/-- `g_hash_table_insert(table, key, value)` on a table created with the key
destructor `g_free` and the value destructor `g_slist_free`. For a key that
is not yet present the pair is added and the table keeps the passed pointer.
For a key that is already present the passed key is handed to `g_free`, a
fault unless `key_ptr` is a block from `g_malloc`, the value already under
the key is handed to `g_slist_free`, and `value` is stored in its place.
`same_head` says that `value` is the very pointer already stored under `key`;
the nodes it leads to are then the ones just released. -/
def g_hash_table_insert (table : GHashTable) (key : String) (key_ptr : NamePtr)
    (value : List EVENT_FUNC) (same_head : Bool) : Except Fault GHashTable :=
  if g_hash_table_contains table key = true ∧ key_ptr = .not_allocated then
    .error .invalid_free
  else
    .ok (store table key (if same_head then .dangling else .list value))

/-! ## event.c : the three functions -/

/-- `event_init`. -/
def event_init : GHashTable := g_hash_table_new_full

/-- `event_listen(name, func)`. The local `gboolean new` has no initialiser:
the parameter `new` is the value it holds at entry. `name` is the text the
pointer leads to and `name_ptr` says what kind of memory holds it. -/
def event_listen (new : gboolean) (listeners : GHashTable) (name : String)
    (name_ptr : NamePtr) (func : EVENT_FUNC) : Except Fault GHashTable :=
  -- GSList *event_listeners = g_hash_table_lookup(listeners, name);
  match g_hash_table_lookup listeners name with
  | .dangling => .error .use_after_free -- g_slist_append walks released nodes
  | .list event_listeners =>
    let was_null := decide (event_listeners = [])
    -- if (event_listeners == NULL) { new = TRUE; }
    let new := if was_null then TRUE else new
    -- event_listeners = g_slist_append(event_listeners, func);
    let event_listeners := g_slist_append event_listeners func
    -- a non-NULL head is returned as it is, and it is the pointer kept in the
    -- table: the table entry now leads to the new node too
    let listeners :=
      if was_null then listeners else store listeners name (.list event_listeners)
    -- if (new == TRUE) { g_hash_table_insert(listeners, name, event_listeners); }
    if new = TRUE then
      g_hash_table_insert listeners name name_ptr event_listeners (!was_null)
    else
      .ok listeners

/-- Whether `event_listen(name, func)` reaches its call of
`g_hash_table_insert`: the test `new == TRUE`, after `new` was set to `TRUE`
for a `NULL` look-up and left at its entry value otherwise. -/
def event_listen_inserts (new : gboolean) (listeners : GHashTable)
    (name : String) : Bool :=
  match g_hash_table_lookup listeners name with
  | .dangling => decide (new = TRUE)
  | .list event_listeners =>
    let new := if decide (event_listeners = []) then TRUE else new
    decide (new = TRUE)

/-- The call `callback(arg0, arg1, arg2)`. A listener is an opaque call target:
the call is recorded, and the listener is taken not to call back into
event.c. -/
def callback (func : EVENT_FUNC) (arg0 arg1 arg2 : gpointer) (w : World) : World :=
  { w with calls := w.calls ++ [⟨func, arg0, arg1, arg2⟩] }

/-- The `while (event_listener != NULL)` loop of `event_trigger` over the nodes
from `event_listener` on. -/
def event_trigger_loop (arg : gpointer) :
    List EVENT_FUNC → va_list → World → World
  | [], _, w => w
  | data :: next, arg_list, w =>
    -- EVENT_FUNC callback = event_listener->data;
    let callback_ := data
    -- void *arg0 = arg;
    let arg0 := arg
    -- void *arg1 = va_arg(arg_list, void *);
    let (arg1, arg_list) := va_arg arg_list
    -- void *arg2 = va_arg(arg_list, void *);
    let (arg2, arg_list) := va_arg arg_list
    -- callback(arg0, arg1, arg2); event_listener = g_slist_next(event_listener);
    event_trigger_loop arg next arg_list (callback callback_ arg0 arg1 arg2 w)

/-- `event_trigger(name, arg, ...)`, with `arg_list` the state of the
`va_list` after `va_start(arg_list, arg)`. -/
def event_trigger (w : World) (name : String) (arg : gpointer)
    (arg_list : va_list) : Except Fault World :=
  -- GSList *event_listener = g_hash_table_lookup(listeners, name);
  match g_hash_table_lookup w.listeners name with
  | .dangling => .error .use_after_free -- the loop reads released nodes
  | .list event_listener => .ok (event_trigger_loop arg event_listener arg_list w)

/-- The calls one dispatch makes over the nodes `l`: node `i` is called with
`arg` and with slots `2 * i` and `2 * i + 1` of the `va_list`. -/
def dispatched (arg : gpointer) : List EVENT_FUNC → va_list → List Call
  | [], _ => []
  | data :: next, ap =>
    ⟨data, arg, ap 0, ap 1⟩ :: dispatched arg next (fun k => ap (k + 2))

/-- A run of `event_listen` calls, in order, each with the value its local
`new` holds at entry and the kind of memory its `name` points to; the first
fault ends the run. -/
def event_listen_all (listeners : GHashTable) :
    List (gboolean × String × NamePtr × EVENT_FUNC) → Except Fault GHashTable
  | [] => .ok listeners
  | (new, name, name_ptr, func) :: rest =>
    match event_listen new listeners name name_ptr func with
    | .error e => .error e
    | .ok listeners => event_listen_all listeners rest

/-! ## preferences.c : data model -/

/-- C `gint`: a 32-bit signed integer, as a mathematical integer. -/
abbrev gint := Int

/-- The values a `gint` can hold. -/
def is_gint (v : Int) : Prop := -2147483648 ≤ v ∧ v ≤ 2147483647

instance (v : Int) : Decidable (is_gint v) := by
  unfold is_gint
  exact inferInstance

/-- Modelled from the spec: the enumeration `preference_t`, whose declaration
(preferences.h) is not among the sources. The spec speaks of recognised keys
fixed by a static table; the constructors are the 21 enumerators that the
`switch` statements of preferences.c name, and `PREF_OTHER` stands for any
further value of the type, which every `switch` sends to its `default:`
label. -/
inductive preference_t where
  | PREF_SPLASH
  | PREF_BEEP
  | PREF_THEME
  | PREF_VERCHECK
  | PREF_TITLEBARVERSION
  | PREF_FLASH
  | PREF_INTYPE
  | PREF_HISTORY
  | PREF_MOUSE
  | PREF_STATUSES
  | PREF_STATES
  | PREF_OUTTYPE
  | PREF_NOTIFY_TYPING
  | PREF_NOTIFY_MESSAGE
  | PREF_NOTIFY_INVITE
  | PREF_NOTIFY_SUB
  | PREF_CHLOG
  | PREF_GRLOG
  | PREF_AUTOAWAY_CHECK
  | PREF_AUTOAWAY_MODE
  | PREF_AUTOAWAY_MESSAGE
  | PREF_OTHER (value : Nat)
  deriving DecidableEq, Repr

open preference_t

/-- A `GKeyFile`: its groups in file order, each with its (key, value) pairs
in file order. Values are the raw text that stands after `=` in the file.
A C string (`char *`) is a `String` read byte by byte: a character stands
for the byte with its code, so that `"\xff"` is the one byte 0xFF; a
character with a code above 255, or with code 0, stands for no byte of a C
string. -/
abbrev GKeyFile := List (String × List (String × String))

/-- State of preferences.c: the key file `prefs`, the global `log_maxsize`,
and the contents of the file at `prefs_loc` (`none`: there is no file). -/
structure Prefs where
  prefs : GKeyFile
  log_maxsize : gint
  file : Option String
  deriving DecidableEq, Repr

/-! ## preferences.c : GLib key-file operations -/

/-- The pairs of the group with that name. -/
def lookup_group (kf : GKeyFile) (group : String) : Option (List (String × String)) :=
  match kf with
  | [] => none
  | (g, pairs) :: rest => if g = group then some pairs else lookup_group rest group

/-- The raw value of the pair with that key. -/
def lookup_pair (pairs : List (String × String)) (key : String) : Option String :=
  match pairs with
  | [] => none
  | (k, v) :: rest => if k = key then some v else lookup_pair rest key

/-- The pairs with `value` under `key`: in place of the old value when the key
is present, as a new last pair otherwise. -/
def set_pair (pairs : List (String × String)) (key value : String) :
    List (String × String) :=
  match pairs with
  | [] => [(key, value)]
  | (k, v) :: rest =>
    if k = key then (k, value) :: rest else (k, v) :: set_pair rest key value

/-- The key file with `value` under `key` of `group`; a missing group is added
as the last group. -/
def set_in_group (kf : GKeyFile) (group key value : String) : GKeyFile :=
  match kf with
  | [] => [(group, [(key, value)])]
  | (g, pairs) :: rest =>
    if g = group then (g, set_pair pairs key value) :: rest
    else (g, pairs) :: set_in_group rest group key value

/-- The pairs without those for `key`. -/
def remove_pair (pairs : List (String × String)) (key : String) :
    List (String × String) :=
  match pairs with
  | [] => []
  | (k, v) :: rest =>
    if k = key then remove_pair rest key else (k, v) :: remove_pair rest key

/-- The key file without the pair for `key` in `group`; the group stays. -/
def remove_in_group (kf : GKeyFile) (group key : String) : GKeyFile :=
  match kf with
  | [] => []
  | (g, pairs) :: rest =>
    if g = group then (g, remove_pair pairs key) :: rest
    else (g, pairs) :: remove_in_group rest group key

/-- `g_key_file_get_value(kf, group, key, NULL)`: the raw value, or `NULL`
when the group name or key is `NULL`, or the group or the key is not there. -/
def g_key_file_get_value (kf : GKeyFile) (group key : Option String) : Option String :=
  match group, key with
  | some g, some k =>
    match lookup_group kf g with
    | none => none
    | some pairs => lookup_pair pairs k
  | _, _ => none

/-- `g_key_file_has_key(kf, group, key, NULL)`. -/
def g_key_file_has_key (kf : GKeyFile) (group key : Option String) : Bool :=
  (g_key_file_get_value kf group key).isSome

/-- `g_key_file_set_value(kf, group, key, value)`; a `NULL` group name or key
fails the entry checks of the function and nothing is stored. -/
def g_key_file_set_value (kf : GKeyFile) (group key : Option String)
    (value : String) : GKeyFile :=
  match group, key with
  | some g, some k => set_in_group kf g k value
  | _, _ => kf

/-- `g_key_file_remove_key(kf, group, key, NULL)`. -/
def g_key_file_remove_key (kf : GKeyFile) (group key : Option String) : GKeyFile :=
  match group, key with
  | some g, some k => remove_in_group kf g k
  | _, _ => kf

/-- The raw value of a boolean: `"true"` for a non-zero `gboolean`, `"false"`
for zero. -/
def parse_boolean_as_value (value : gboolean) : String :=
  if value ≠ 0 then "true" else "false"

/-- C `isspace` in the C locale: blank, `\t`, `\n`, `\v`, `\f`, `\r`. -/
def isspace (c : Char) : Bool :=
  c = ' ' || c = '\t' || c = '\n' || c = '\x0b' || c = '\x0c' || c = '\r'

/-- GLib `g_ascii_isspace`: blank, `\t`, `\n`, `\f`, `\r` (not `\v`). -/
def g_ascii_isspace (c : Char) : Bool :=
  c = ' ' || c = '\t' || c = '\n' || c = '\x0c' || c = '\r'

/-- The boolean a raw value stands for: with the white space at its end left
out, `"true"` and `"1"` are `TRUE`, `"false"` and `"0"` are `FALSE`, anything
else is malformed. -/
def parse_value_as_boolean (value : String) : Option gboolean :=
  let text := String.mk (value.data.reverse.dropWhile g_ascii_isspace).reverse
  if text = "true" ∨ text = "1" then some TRUE
  else if text = "false" ∨ text = "0" then some FALSE
  else none

/-- `g_key_file_set_boolean(kf, group, key, value)`. -/
def g_key_file_set_boolean (kf : GKeyFile) (group key : Option String)
    (value : gboolean) : GKeyFile :=
  g_key_file_set_value kf group key (parse_boolean_as_value value)

/-- `g_key_file_get_boolean(kf, group, key, NULL)`: `FALSE` when the key is
not found or its value is malformed. -/
def g_key_file_get_boolean (kf : GKeyFile) (group key : Option String) : gboolean :=
  match g_key_file_get_value kf group key with
  | none => FALSE
  | some value =>
    match parse_value_as_boolean value with
    | none => FALSE
    | some b => b

/-- Escaping of a string for storing: a backslash, line feed and carriage
return are always escaped, a blank or tab while no other character has come
before it. -/
def parse_string_as_value (parsing_leading_space : Bool) : List Char → List Char
  | [] => []
  | c :: rest =>
    if c = ' ' then
      if parsing_leading_space then
        '\\' :: 's' :: parse_string_as_value parsing_leading_space rest
      else c :: parse_string_as_value parsing_leading_space rest
    else if c = '\t' then
      if parsing_leading_space then
        '\\' :: 't' :: parse_string_as_value parsing_leading_space rest
      else c :: parse_string_as_value parsing_leading_space rest
    else if c = '\n' then
      '\\' :: 'n' :: parse_string_as_value parsing_leading_space rest
    else if c = '\r' then
      '\\' :: 'r' :: parse_string_as_value parsing_leading_space rest
    else if c = '\\' then
      '\\' :: '\\' :: parse_string_as_value parsing_leading_space rest
    else c :: parse_string_as_value false rest

/-- Reading a raw value as a string: the escapes `\s`, `\n`, `\t`, `\r` and
`\\` are replaced, any other backslash pair is kept, a backslash at the very
end is dropped. -/
def parse_value_as_string : List Char → List Char
  | [] => []
  | c :: rest =>
    if c = '\\' then
      match rest with
      | [] => []
      | e :: rest =>
        if e = 's' then ' ' :: parse_value_as_string rest
        else if e = 'n' then '\n' :: parse_value_as_string rest
        else if e = 't' then '\t' :: parse_value_as_string rest
        else if e = 'r' then '\r' :: parse_value_as_string rest
        else if e = '\\' then '\\' :: parse_value_as_string rest
        else '\\' :: e :: parse_value_as_string rest
    else c :: parse_value_as_string rest

/-- `g_key_file_set_string(kf, group, key, string)`. -/
def g_key_file_set_string (kf : GKeyFile) (group key : Option String)
    (string : String) : GKeyFile :=
  g_key_file_set_value kf group key (String.mk (parse_string_as_value true string.data))

/-- The first byte `b` of a UTF-8 sequence: how many bytes of the sequence
are still to come and the bounds for the next of them; `none` for a byte that
cannot start a sequence. Sequences are those of well-formed UTF-8: no byte 0,
no overlong form, no surrogate, nothing above U+10FFFF. -/
def utf8_lead (b : Nat) : Option (Nat × Nat × Nat) :=
  if 1 ≤ b ∧ b ≤ 0x7F then some (0, 0, 0)
  else if 0xC2 ≤ b ∧ b ≤ 0xDF then some (1, 0x80, 0xBF)
  else if b = 0xE0 then some (2, 0xA0, 0xBF)
  else if (0xE1 ≤ b ∧ b ≤ 0xEC) ∨ b = 0xEE ∨ b = 0xEF then some (2, 0x80, 0xBF)
  else if b = 0xED then some (2, 0x80, 0x9F)
  else if b = 0xF0 then some (3, 0x90, 0xBF)
  else if 0xF1 ≤ b ∧ b ≤ 0xF3 then some (3, 0x80, 0xBF)
  else if b = 0xF4 then some (3, 0x80, 0x8F)
  else none

/-- The UTF-8 check, one byte at a time: `need` bytes of the current sequence
are still to come, and the next of them has to lie between `lo` and `hi`. -/
def utf8_walk (need lo hi : Nat) : List Char → Bool
  | [] => need = 0
  | c :: rest =>
    if need = 0 then
      match utf8_lead c.toNat with
      | none => false
      | some (need, lo, hi) => utf8_walk need lo hi rest
    else if lo ≤ c.toNat ∧ c.toNat ≤ hi then utf8_walk (need - 1) 0x80 0xBF rest
    else false

/-- `g_utf8_validate(str, -1, NULL)`. -/
def g_utf8_validate (str : List Char) : Bool :=
  utf8_walk 0 0 0 str

/-- `g_key_file_get_string(kf, group, key, NULL)`: `NULL` when the key is not
found, and `NULL` when the raw value is not valid UTF-8; otherwise the string
the raw value stands for. -/
def g_key_file_get_string (kf : GKeyFile) (group key : Option String) : Option String :=
  match g_key_file_get_value kf group key with
  | none => none
  | some value =>
    if g_utf8_validate value.data then
      some (String.mk (parse_value_as_string value.data))
    else none

/-- The decimal digit `d` as a character. -/
def digit_char (d : Nat) : Char := Char.ofNat (48 + d)

/-- The decimal digits of `n`, most significant first; `fuel` bounds the number
of digits and `n + 1` is always enough. -/
def print_nat : Nat → Nat → List Char
  | 0, _ => []
  | fuel + 1, n =>
    if n < 10 then [digit_char n] else print_nat fuel (n / 10) ++ [digit_char (n % 10)]

/-- The text `printf("%d", value)` produces. -/
def print_integer (value : gint) : List Char :=
  if value < 0 then '-' :: print_nat (value.natAbs + 1) value.natAbs
  else print_nat (value.natAbs + 1) value.natAbs

/-- The number the leading run of decimal digits stands for, continuing from
`acc`, and what follows that run. -/
def take_digits (acc : Nat) : List Char → Nat × List Char
  | [] => (acc, [])
  | c :: rest =>
    if '0' ≤ c ∧ c ≤ '9' then take_digits (acc * 10 + (c.toNat - 48)) rest
    else (acc, c :: rest)

/-- `strtol(value, &end, 10)`: white space is skipped, then an optional sign
and the longest run of decimal digits are read; the result is the number and
what follows the digits. Without a digit nothing is converted: the result is
0 and `end` is `value` itself. The number is the mathematical one: where C
clamps to the range of `long` and sets `ERANGE`, the caller rejects the value
just as it rejects any number outside `gint`. -/
def strtol (value : List Char) : Int × List Char :=
  let text := value.dropWhile isspace
  let negative := decide (text.head? = some '-')
  let body := if text.head? = some '-' ∨ text.head? = some '+' then text.tail else text
  match body with
  | [] => (0, value)
  | c :: _ =>
    if '0' ≤ c ∧ c ≤ '9' then
      let (n, eof) := take_digits 0 body
      (if negative then -(n : Int) else (n : Int), eof)
    else (0, value)

/-- The integer a raw value stands for: `strtol` in base 10, then the value is
malformed when it is empty or when a character other than white space
follows the number, and out of range when the number does not fit a
`gint`. -/
def parse_value_as_integer (value : List Char) : Option gint :=
  let (long_value, eof_int) := strtol value
  let stops_badly :=
    match eof_int with
    | [] => false
    | c :: _ => !g_ascii_isspace c
  if value = [] ∨ stops_badly = true then none
  else if is_gint long_value then some long_value else none

/-- `g_key_file_set_integer(kf, group, key, value)`. -/
def g_key_file_set_integer (kf : GKeyFile) (group key : Option String)
    (value : gint) : GKeyFile :=
  g_key_file_set_value kf group key (String.mk (print_integer value))

/-- `g_key_file_get_integer(kf, group, key, &err)`: the value, or `none` when
`err` is set (key not found, or malformed value) and the C function returns 0. -/
def g_key_file_get_integer_err (kf : GKeyFile) (group key : Option String) :
    Option gint :=
  match g_key_file_get_value kf group key with
  | none => none
  | some value => parse_value_as_integer value.data

/-- `g_key_file_get_integer(kf, group, key, NULL)`: 0 on any error. -/
def g_key_file_get_integer (kf : GKeyFile) (group key : Option String) : gint :=
  match g_key_file_get_integer_err kf group key with
  | none => 0
  | some v => v

/-- `g_key_file_to_data(kf, &size, NULL)`: each group as a `[name]` line and
one `key=value` line per pair, groups separated by an empty line. -/
def g_key_file_to_data (kf : GKeyFile) : String :=
  String.intercalate "\n"
    (kf.map (fun g =>
      "[" ++ g.1 ++ "]\n" ++ String.join (g.2.map (fun p => p.1 ++ "=" ++ p.2 ++ "\n"))))

/-! ## preferences.c : the functions -/

/-- `_get_group(pref)`. -/
def _get_group (pref : preference_t) : Option String :=
  match pref with
  | PREF_SPLASH | PREF_BEEP | PREF_THEME | PREF_VERCHECK | PREF_TITLEBARVERSION
  | PREF_FLASH | PREF_INTYPE | PREF_HISTORY | PREF_MOUSE | PREF_STATUSES =>
    some "ui"
  | PREF_STATES | PREF_OUTTYPE => some "chatstates"
  | PREF_NOTIFY_TYPING | PREF_NOTIFY_MESSAGE | PREF_NOTIFY_INVITE | PREF_NOTIFY_SUB =>
    some "notifications"
  | PREF_CHLOG | PREF_GRLOG => some "logging"
  | PREF_AUTOAWAY_CHECK | PREF_AUTOAWAY_MODE | PREF_AUTOAWAY_MESSAGE =>
    some "presence"
  | PREF_OTHER _ => none

/-- `_get_key(pref)`. -/
def _get_key (pref : preference_t) : Option String :=
  match pref with
  | PREF_SPLASH => some "splash"
  | PREF_BEEP => some "beep"
  | PREF_THEME => some "theme"
  | PREF_VERCHECK => some "vercheck"
  | PREF_TITLEBARVERSION => some "titlebar.version"
  | PREF_FLASH => some "flash"
  | PREF_INTYPE => some "intype"
  | PREF_HISTORY => some "history"
  | PREF_MOUSE => some "mouse"
  | PREF_STATUSES => some "statuses"
  | PREF_STATES => some "enabled"
  | PREF_OUTTYPE => some "outtype"
  | PREF_NOTIFY_TYPING => some "typing"
  | PREF_NOTIFY_MESSAGE => some "message"
  | PREF_NOTIFY_INVITE => some "invite"
  | PREF_NOTIFY_SUB => some "sub"
  | PREF_CHLOG => some "chlog"
  | PREF_GRLOG => some "grlog"
  | PREF_AUTOAWAY_CHECK => some "autoaway.check"
  | PREF_AUTOAWAY_MODE => some "autoaway.mode"
  | PREF_AUTOAWAY_MESSAGE => some "autoaway.message"
  | PREF_OTHER _ => none

/-- `_get_default_boolean(pref)`. -/
def _get_default_boolean (pref : preference_t) : gboolean :=
  match pref with
  | PREF_STATUSES | PREF_AUTOAWAY_CHECK => TRUE
  | _ => FALSE

/-- `_get_default_string(pref)`. -/
def _get_default_string (pref : preference_t) : Option String :=
  match pref with
  | PREF_AUTOAWAY_MODE => some "off"
  | _ => none

/-- A recognised preference: one of the 21 enumerators of the switches. -/
def recognised (pref : preference_t) : Bool :=
  match pref with
  | PREF_OTHER _ => false
  | _ => true

/-- `_save_prefs()`. `written` is the outcome of `g_file_set_contents`, whose
result the function does not look at: on failure the file stays as it was. -/
def _save_prefs (st : Prefs) (written : Bool) : Prefs :=
  -- char *g_prefs_data = g_key_file_to_data(prefs, &g_data_size, NULL);
  let g_prefs_data := g_key_file_to_data st.prefs
  -- g_file_set_contents(prefs_loc, g_prefs_data, g_data_size, NULL);
  if written then { st with file := some g_prefs_data } else st

/-- `prefs_load()`, from the contents of the file at `prefs_loc` as
`g_key_file_load_from_file` parsed them into `loaded` (no pairs when the file
is missing or cannot be parsed). -/
def prefs_load (loaded : GKeyFile) (file : Option String) : Prefs :=
  -- log_maxsize = g_key_file_get_integer(prefs, PREF_GROUP_LOGGING, "maxsize", &err);
  -- if (err != NULL) { log_maxsize = 0; ... }
  let log_maxsize :=
    match g_key_file_get_integer_err loaded (some "logging") (some "maxsize") with
    | none => 0
    | some v => v
  { prefs := loaded, log_maxsize := log_maxsize, file := file }

/-- `prefs_get_boolean(pref)`. -/
def prefs_get_boolean (st : Prefs) (pref : preference_t) : gboolean :=
  let group := _get_group pref
  let key := _get_key pref
  let default := _get_default_boolean pref
  if !g_key_file_has_key st.prefs group key then default
  else g_key_file_get_boolean st.prefs group key

/-- `prefs_set_boolean(pref, value)`. -/
def prefs_set_boolean (st : Prefs) (pref : preference_t) (value : gboolean)
    (written : Bool) : Prefs :=
  let group := _get_group pref
  let key := _get_key pref
  _save_prefs { st with prefs := g_key_file_set_boolean st.prefs group key value } written

/-- `prefs_get_string(pref)`. -/
def prefs_get_string (st : Prefs) (pref : preference_t) : Option String :=
  let group := _get_group pref
  let key := _get_key pref
  let default := _get_default_string pref
  if !g_key_file_has_key st.prefs group key then default
  else
    match g_key_file_get_string st.prefs group key with
    | none => default
    | some result => some result

/-- `prefs_set_string(pref, value)`; `none` is the `NULL` pointer. -/
def prefs_set_string (st : Prefs) (pref : preference_t) (value : Option String)
    (written : Bool) : Prefs :=
  let group := _get_group pref
  let key := _get_key pref
  match value with
  | none =>
    _save_prefs { st with prefs := g_key_file_remove_key st.prefs group key } written
  | some value =>
    _save_prefs { st with prefs := g_key_file_set_string st.prefs group key value } written

/-- `prefs_get_gone()`. -/
def prefs_get_gone (st : Prefs) : gint :=
  g_key_file_get_integer st.prefs (some "chatstates") (some "gone")

/-- `prefs_set_gone(value)`. -/
def prefs_set_gone (st : Prefs) (value : gint) (written : Bool) : Prefs :=
  _save_prefs
    { st with prefs :=
        g_key_file_set_integer st.prefs (some "chatstates") (some "gone") value }
    written

/-- `prefs_get_notify_remind()`. -/
def prefs_get_notify_remind (st : Prefs) : gint :=
  g_key_file_get_integer st.prefs (some "notifications") (some "remind")

/-- `prefs_set_notify_remind(value)`. -/
def prefs_set_notify_remind (st : Prefs) (value : gint) (written : Bool) : Prefs :=
  _save_prefs
    { st with prefs :=
        g_key_file_set_integer st.prefs (some "notifications") (some "remind") value }
    written

/-- `prefs_get_max_log_size()`; the macros `PREFS_MIN_LOG_SIZE` and
`PREFS_MAX_LOG_SIZE` of preferences.h are the parameters `min_log_size` and
`max_log_size`. -/
def prefs_get_max_log_size (min_log_size max_log_size : gint) (st : Prefs) : gint :=
  if st.log_maxsize < min_log_size then max_log_size else st.log_maxsize

/-- `prefs_set_max_log_size(value)`. -/
def prefs_set_max_log_size (st : Prefs) (value : gint) (written : Bool) : Prefs :=
  _save_prefs
    { st with
      log_maxsize := value
      prefs := g_key_file_set_integer st.prefs (some "logging") (some "maxsize") value }
    written

/-- `prefs_get_priority()`. -/
def prefs_get_priority (st : Prefs) : gint :=
  g_key_file_get_integer st.prefs (some "presence") (some "priority")

/-- `prefs_set_priority(value)`. -/
def prefs_set_priority (st : Prefs) (value : gint) (written : Bool) : Prefs :=
  _save_prefs
    { st with prefs :=
        g_key_file_set_integer st.prefs (some "presence") (some "priority") value }
    written

/-- `prefs_get_reconnect()`. -/
def prefs_get_reconnect (st : Prefs) : gint :=
  g_key_file_get_integer st.prefs (some "connection") (some "reconnect")

/-- `prefs_set_reconnect(value)`. -/
def prefs_set_reconnect (st : Prefs) (value : gint) (written : Bool) : Prefs :=
  _save_prefs
    { st with prefs :=
        g_key_file_set_integer st.prefs (some "connection") (some "reconnect") value }
    written

/-- `prefs_get_autoping()`. -/
def prefs_get_autoping (st : Prefs) : gint :=
  g_key_file_get_integer st.prefs (some "connection") (some "autoping")

/-- `prefs_set_autoping(value)`. -/
def prefs_set_autoping (st : Prefs) (value : gint) (written : Bool) : Prefs :=
  _save_prefs
    { st with prefs :=
        g_key_file_set_integer st.prefs (some "connection") (some "autoping") value }
    written

/-- `prefs_get_autoaway_time()`. -/
def prefs_get_autoaway_time (st : Prefs) : gint :=
  let result := g_key_file_get_integer st.prefs (some "presence") (some "autoaway.time")
  if result = 0 then 15 else result

/-- `prefs_set_autoaway_time(value)`. -/
def prefs_set_autoaway_time (st : Prefs) (value : gint) (written : Bool) : Prefs :=
  _save_prefs
    { st with prefs :=
        g_key_file_set_integer st.prefs (some "presence") (some "autoaway.time") value }
    written

/-- The seven integer settings of preferences.c, one for each pair of an
integer setter and getter. -/
inductive int_setting where
  | gone
  | notify_remind
  | max_log_size
  | priority
  | reconnect
  | autoping
  | autoaway_time
  deriving DecidableEq, Repr

/-- The setter of an integer setting. -/
def prefs_set_int (i : int_setting) (st : Prefs) (value : gint) (written : Bool) : Prefs :=
  match i with
  | .gone => prefs_set_gone st value written
  | .notify_remind => prefs_set_notify_remind st value written
  | .max_log_size => prefs_set_max_log_size st value written
  | .priority => prefs_set_priority st value written
  | .reconnect => prefs_set_reconnect st value written
  | .autoping => prefs_set_autoping st value written
  | .autoaway_time => prefs_set_autoaway_time st value written

/-- The getter of an integer setting. -/
def prefs_get_int (min_log_size max_log_size : gint) (i : int_setting) (st : Prefs) : gint :=
  match i with
  | .gone => prefs_get_gone st
  | .notify_remind => prefs_get_notify_remind st
  | .max_log_size => prefs_get_max_log_size min_log_size max_log_size st
  | .priority => prefs_get_priority st
  | .reconnect => prefs_get_reconnect st
  | .autoping => prefs_get_autoping st
  | .autoaway_time => prefs_get_autoaway_time st

/-! ## event.c : lemmas -/

theorem lookup_store_same (t : GHashTable) (k : String) (v : GSListPtr) :
    g_hash_table_lookup (store t k v) k = v := by
  induction t with
  | nil => simp [store, g_hash_table_lookup]
  | cons p rest ih =>
    obtain ⟨k0, v0⟩ := p
    by_cases h : k0 = k
    · simp [store, g_hash_table_lookup, h]
    · simp [store, g_hash_table_lookup, h, ih]

theorem lookup_store_other (t : GHashTable) (k k' : String) (v : GSListPtr)
    (hne : k' ≠ k) :
    g_hash_table_lookup (store t k v) k' = g_hash_table_lookup t k' := by
  induction t with
  | nil =>
    have h : ¬ k = k' := fun e => hne e.symm
    simp [store, g_hash_table_lookup, h]
  | cons p rest ih =>
    obtain ⟨k0, v0⟩ := p
    by_cases h : k0 = k
    · subst h
      have h' : ¬ k0 = k' := fun e => hne e.symm
      simp [store, g_hash_table_lookup, h']
    · by_cases h2 : k0 = k'
      · subst h2
        simp [store, g_hash_table_lookup, hne]
      · simp [store, g_hash_table_lookup, h, h2, ih]

theorem store_store (t : GHashTable) (k : String) (v v' : GSListPtr) :
    store (store t k v) k v' = store t k v' := by
  induction t with
  | nil => simp [store]
  | cons p rest ih =>
    obtain ⟨k0, v0⟩ := p
    by_cases h : k0 = k
    · simp [store, h]
    · simp [store, h, ih]

theorem lookup_of_not_contains (t : GHashTable) (k : String)
    (h : g_hash_table_contains t k = false) :
    g_hash_table_lookup t k = .list [] := by
  induction t with
  | nil => rfl
  | cons p rest ih =>
    obtain ⟨k0, v0⟩ := p
    by_cases hk : k0 = k
    · simp [g_hash_table_contains, hk] at h
    · simp only [g_hash_table_contains, hk, if_false] at h
      simp [g_hash_table_lookup, hk, ih h]

theorem contains_store_same (t : GHashTable) (k : String) (v : GSListPtr) :
    g_hash_table_contains (store t k v) k = true := by
  induction t with
  | nil => simp [store, g_hash_table_contains]
  | cons p rest ih =>
    obtain ⟨k0, v0⟩ := p
    by_cases h : k0 = k
    · simp [store, g_hash_table_contains, h]
    · simp [store, g_hash_table_contains, h, ih]

theorem contains_store_other (t : GHashTable) (k k' : String) (v : GSListPtr)
    (hne : k' ≠ k) :
    g_hash_table_contains (store t k v) k' = g_hash_table_contains t k' := by
  induction t with
  | nil =>
    have h : ¬ k = k' := fun e => hne e.symm
    simp [store, g_hash_table_contains, h]
  | cons p rest ih =>
    obtain ⟨k0, v0⟩ := p
    by_cases h : k0 = k
    · subst h
      have h' : ¬ k0 = k' := fun e => hne e.symm
      simp [store, g_hash_table_contains, h']
    · by_cases h2 : k0 = k'
      · subst h2
        simp [store, g_hash_table_contains, hne]
      · simp [store, g_hash_table_contains, h, h2, ih]

/-- What `event_listen` does, by the three paths through it: first listener
of the name, reuse with `new` equal to `TRUE`, reuse with `new` different from
`TRUE`. The two paths that insert under a key already present fault on a
`name` that is not a block from `g_malloc`. -/
theorem event_listen_eq (new : gboolean) (t : GHashTable) (name : String)
    (ptr : NamePtr) (func : EVENT_FUNC) (l : List EVENT_FUNC)
    (hl : g_hash_table_lookup t name = .list l) :
    event_listen new t name ptr func =
      if l = [] then
        (if g_hash_table_contains t name = true ∧ ptr = .not_allocated then
          .error .invalid_free
        else .ok (store t name (.list [func])))
      else if new = TRUE then
        (if ptr = .not_allocated then .error .invalid_free
        else .ok (store t name .dangling))
      else .ok (store t name (.list (l ++ [func]))) := by
  unfold event_listen
  rw [hl]
  by_cases hnil : l = []
  · subst hnil
    simp [g_hash_table_insert, g_slist_append]
  · by_cases hnew : new = TRUE
    · simp [hnil, hnew, g_hash_table_insert, g_slist_append, store_store,
        contains_store_same]
    · simp [hnil, hnew, g_slist_append]

theorem event_trigger_loop_eq (arg : gpointer) (l : List EVENT_FUNC)
    (ap : va_list) (w : World) :
    event_trigger_loop arg l ap w = ⟨w.listeners, w.calls ++ dispatched arg l ap⟩ := by
  induction l generalizing ap w with
  | nil => simp [event_trigger_loop, dispatched]
  | cons f next ih =>
    simp [event_trigger_loop, dispatched, va_arg, callback, ih]

theorem dispatched_funcs (arg : gpointer) (l : List EVENT_FUNC) (ap : va_list) :
    (dispatched arg l ap).map Call.func = l := by
  induction l generalizing ap with
  | nil => rfl
  | cons f next ih => simp [dispatched, ih]

theorem event_trigger_eq (w : World) (name : String) (arg : gpointer)
    (ap : va_list) (l : List EVENT_FUNC)
    (hl : g_hash_table_lookup w.listeners name = .list l) :
    event_trigger w name arg ap = .ok ⟨w.listeners, w.calls ++ dispatched arg l ap⟩ := by
  unfold event_trigger
  rw [hl]
  simp [event_trigger_loop_eq]

/-- With every `new` different from `TRUE` at entry, a run of `event_listen`
calls from a table of intact lists, none of them empty, ends without fault,
and the list under each name is the old one followed by the listeners
subscribed under that name, in call order. -/
theorem event_listen_all_lookup
    (calls : List (gboolean × String × NamePtr × EVENT_FUNC))
    (t : GHashTable) (hflags : ∀ c ∈ calls, c.1 ≠ TRUE)
    (hlive : ∀ n, ∃ l, g_hash_table_lookup t n = .list l ∧
      (g_hash_table_contains t n = true → l ≠ [])) :
    ∃ t', event_listen_all t calls = .ok t' ∧
      ∀ n l, g_hash_table_lookup t n = .list l →
        g_hash_table_lookup t' n =
          .list (l ++ (calls.filter (fun c => c.2.1 = n)).map (fun c => c.2.2.2)) := by
  induction calls generalizing t with
  | nil =>
    refine ⟨t, rfl, ?_⟩
    intro n l h
    simp [h]
  | cons c rest ih =>
    obtain ⟨new, name, ptr, func⟩ := c
    have hnew : new ≠ TRUE := hflags (new, name, ptr, func) (List.mem_cons_self _ _)
    obtain ⟨l0, hl0, hkey⟩ := hlive name
    have hstep : event_listen new t name ptr func =
        .ok (store t name (.list (l0 ++ [func]))) := by
      rw [event_listen_eq new t name ptr func l0 hl0]
      by_cases hnil : l0 = []
      · have habsent : ¬ g_hash_table_contains t name = true := fun h => hkey h hnil
        simp [hnil, habsent]
      · simp [hnil, hnew]
    have hlive1 : ∀ n, ∃ l, g_hash_table_lookup
        (store t name (.list (l0 ++ [func]))) n = .list l ∧
        (g_hash_table_contains (store t name (.list (l0 ++ [func]))) n = true →
          l ≠ []) := by
      intro n
      by_cases hn : n = name
      · subst hn
        exact ⟨_, lookup_store_same _ _ _, fun _ => by simp⟩
      · obtain ⟨l, hl, hk⟩ := hlive n
        refine ⟨l, by rw [lookup_store_other _ _ _ _ hn, hl], ?_⟩
        rw [contains_store_other _ _ _ _ hn]
        exact hk
    obtain ⟨t', hrun, hlook⟩ :=
      ih (store t name (.list (l0 ++ [func])))
        (fun c hc => hflags c (List.mem_cons_of_mem _ hc)) hlive1
    refine ⟨t', ?_, ?_⟩
    · simp [event_listen_all, hstep, hrun]
    · intro n l hl
      by_cases hn : n = name
      · subst hn
        have hll : l = l0 := by
          rw [hl0] at hl
          exact (GSListPtr.list.inj hl).symm
        subst hll
        rw [hlook n (l ++ [func]) (lookup_store_same _ _ _)]
        simp
      · have hn' : ¬ name = n := fun e => hn e.symm
        rw [hlook n l (by rw [lookup_store_other _ _ _ _ hn, hl])]
        simp [hn']

/-! ## event.c : the claims -/

/-- C1 fails on the code. With two listeners `f`, `g` under a name,
`event_trigger(name, v0, v1, v2)` calls `f` with `(v0, v1, v2)` and `g` with
`v0` and the two argument slots that follow `v2`, which the caller did not
pass: `va_arg` is read again on every turn of the loop. -/
theorem event_trigger_second_listener_args (name : String) (f g : EVENT_FUNC)
    (v0 v1 v2 : gpointer) (beyond : Nat → gpointer) :
    event_trigger ⟨[(name, .list [f, g])], []⟩ name v0 (va_start v1 v2 beyond) =
      .ok ⟨[(name, .list [f, g])],
        [⟨f, v0, v1, v2⟩, ⟨g, v0, beyond 0, beyond 1⟩]⟩ := by
  simp [event_trigger, g_hash_table_lookup, event_trigger_loop, va_arg, callback,
    va_start]

/-- C2 fails on the code. After `event_init`, `event_listen("x", 7)` and then
`event_listen("x", 8)` entered with `TRUE` in the uninitialised `new`: the
second call re-inserts the list under its own key, the table releases it, and
`event_trigger("x", ...)` walks released nodes instead of calling 7 and 8.
That is for a `name` from `g_malloc`; with a string literal the re-insert
already faults, on the `g_free` of the passed key. -/
theorem event_listen_reuse_new_true_releases_list :
    event_listen_all event_init
        [(FALSE, "x", .allocated, 7), (TRUE, "x", .allocated, 8)] =
        .ok [("x", .dangling)] ∧
      event_trigger ⟨[("x", .dangling)], []⟩ "x" 10 (va_start 20 30 (fun _ => 0)) =
        .error .use_after_free ∧
      event_listen_all event_init
        [(FALSE, "x", .not_allocated, 7), (TRUE, "x", .not_allocated, 8)] =
        .error .invalid_free := by
  refine ⟨rfl, rfl, rfl⟩

/-- C4. When the registry has no pair for the name, `event_trigger` returns
without fault and makes no call: the world after is the world before. -/
theorem event_trigger_unknown_name (w : World) (name : String) (arg : gpointer)
    (ap : va_list) (habsent : g_hash_table_contains w.listeners name = false) :
    event_trigger w name arg ap = .ok w := by
  rw [event_trigger_eq w name arg ap [] (lookup_of_not_contains _ _ habsent)]
  simp [dispatched]

theorem event_trigger_unknown_name_witness :
    event_trigger ⟨[("x", .list [7])], [⟨7, 1, 2, 3⟩]⟩ "nonexistent" 10
        (va_start 20 30 (fun _ => 0)) =
      .ok ⟨[("x", .list [7])], [⟨7, 1, 2, 3⟩]⟩ :=
  event_trigger_unknown_name ⟨[("x", .list [7])], [⟨7, 1, 2, 3⟩]⟩ "nonexistent" 10
    (va_start 20 30 (fun _ => 0)) rfl

/-- C5 fails on the code. `event_listen("x", 7)` called twice after
`event_init`, the second time entered with `TRUE` in the uninitialised `new`:
the list is released by the re-insert and `event_trigger("x", ...)` faults
instead of calling listener 7 twice. That is for a `name` from `g_malloc`;
with a string literal the re-insert already faults, on the `g_free` of the
passed key. -/
theorem event_listen_duplicate_new_true_releases_list :
    event_listen_all event_init
        [(FALSE, "x", .allocated, 7), (TRUE, "x", .allocated, 7)] =
        .ok [("x", .dangling)] ∧
      event_trigger ⟨[("x", .dangling)], []⟩ "x" 1 (va_start 2 3 (fun _ => 0)) =
        .error .use_after_free ∧
      event_listen_all event_init
        [(FALSE, "x", .not_allocated, 7), (TRUE, "x", .not_allocated, 7)] =
        .error .invalid_free := by
  refine ⟨rfl, rfl, rfl⟩

/-- C6. On a registry whose list under the name is intact, `event_trigger`
returns with `listeners` as it was, having called the listeners of the list in
order, and a second `event_trigger` of the same name right after it, with any
arguments, returns too, again with `listeners` as it was and having called the
same listeners in the same order. -/
theorem event_trigger_registry_unchanged (w : World) (name : String)
    (arg arg' : gpointer) (ap ap' : va_list) (l : List EVENT_FUNC)
    (hlive : g_hash_table_lookup w.listeners name = .list l) :
    ∃ made made' : List Call,
      made.map Call.func = l ∧ made'.map Call.func = l ∧
      event_trigger w name arg ap = .ok ⟨w.listeners, w.calls ++ made⟩ ∧
      event_trigger ⟨w.listeners, w.calls ++ made⟩ name arg' ap' =
        .ok ⟨w.listeners, (w.calls ++ made) ++ made'⟩ :=
  ⟨dispatched arg l ap, dispatched arg' l ap', dispatched_funcs arg l ap,
    dispatched_funcs arg' l ap', event_trigger_eq w name arg ap l hlive,
    event_trigger_eq ⟨w.listeners, w.calls ++ dispatched arg l ap⟩ name arg' ap' l hlive⟩

theorem event_trigger_registry_unchanged_witness :
    ∃ made made' : List Call,
      made.map Call.func = [7, 8] ∧ made'.map Call.func = [7, 8] ∧
      event_trigger ⟨[("x", .list [7, 8])], []⟩ "x" 10 (va_start 20 30 (fun _ => 0)) =
        .ok ⟨[("x", .list [7, 8])], [] ++ made⟩ ∧
      event_trigger ⟨[("x", .list [7, 8])], [] ++ made⟩ "x" 11
          (va_start 21 31 (fun _ => 1)) =
        .ok ⟨[("x", .list [7, 8])], ([] ++ made) ++ made'⟩ :=
  event_trigger_registry_unchanged ⟨[("x", .list [7, 8])], []⟩ "x" 10 11
    (va_start 20 30 (fun _ => 0)) (va_start 21 31 (fun _ => 1)) [7, 8] rfl

/-! ## preferences.c : lemmas on the key file -/

theorem lookup_pair_set_pair_same (pairs : List (String × String)) (k v : String) :
    lookup_pair (set_pair pairs k v) k = some v := by
  induction pairs with
  | nil => simp [set_pair, lookup_pair]
  | cons p rest ih =>
    obtain ⟨k0, v0⟩ := p
    by_cases h : k0 = k
    · simp [set_pair, lookup_pair, h]
    · simp [set_pair, lookup_pair, h, ih]

theorem lookup_pair_set_pair_other (pairs : List (String × String))
    (k k' v : String) (hne : k' ≠ k) :
    lookup_pair (set_pair pairs k v) k' = lookup_pair pairs k' := by
  induction pairs with
  | nil =>
    have h : ¬ k = k' := fun e => hne e.symm
    simp [set_pair, lookup_pair, h]
  | cons p rest ih =>
    obtain ⟨k0, v0⟩ := p
    by_cases h : k0 = k
    · subst h
      have h' : ¬ k0 = k' := fun e => hne e.symm
      simp [set_pair, lookup_pair, h']
    · by_cases h2 : k0 = k'
      · subst h2
        simp [set_pair, lookup_pair, hne]
      · simp [set_pair, lookup_pair, h, h2, ih]

theorem lookup_pair_remove_pair_same (pairs : List (String × String)) (k : String) :
    lookup_pair (remove_pair pairs k) k = none := by
  induction pairs with
  | nil => simp [remove_pair, lookup_pair]
  | cons p rest ih =>
    obtain ⟨k0, v0⟩ := p
    by_cases h : k0 = k
    · simp [remove_pair, h, ih]
    · simp [remove_pair, h, lookup_pair, ih]

theorem lookup_pair_remove_pair_other (pairs : List (String × String))
    (k k' : String) (hne : k' ≠ k) :
    lookup_pair (remove_pair pairs k) k' = lookup_pair pairs k' := by
  induction pairs with
  | nil => simp [remove_pair, lookup_pair]
  | cons p rest ih =>
    obtain ⟨k0, v0⟩ := p
    by_cases h : k0 = k
    · subst h
      have h' : ¬ k0 = k' := fun e => hne e.symm
      simp [remove_pair, lookup_pair, h', ih]
    · simp [remove_pair, h, lookup_pair, ih]

/-- A value just stored is the value read back. -/
theorem get_value_set_same (kf : GKeyFile) (g k v : String) :
    g_key_file_get_value (g_key_file_set_value kf (some g) (some k) v) (some g) (some k) =
      some v := by
  simp only [g_key_file_get_value, g_key_file_set_value]
  induction kf with
  | nil => simp [set_in_group, lookup_group, lookup_pair]
  | cons p rest ih =>
    obtain ⟨g0, pairs⟩ := p
    by_cases h : g0 = g
    · simp [set_in_group, lookup_group, h, lookup_pair_set_pair_same]
    · simp [set_in_group, lookup_group, h]
      exact ih

/-- Storing under one (group, key) leaves every other slot as it was. -/
theorem get_value_set_other (kf : GKeyFile) (g k v : String)
    (group key : Option String) (hne : ¬ (group = some g ∧ key = some k)) :
    g_key_file_get_value (g_key_file_set_value kf (some g) (some k) v) group key =
      g_key_file_get_value kf group key := by
  cases group with
  | none => simp [g_key_file_get_value]
  | some g' =>
    cases key with
    | none => simp [g_key_file_get_value]
    | some k' =>
      simp only [g_key_file_get_value, g_key_file_set_value]
      induction kf with
      | nil =>
        by_cases hg : g = g'
        · subst hg
          have hk : ¬ k = k' := fun e => hne ⟨rfl, by rw [e]⟩
          simp [set_in_group, lookup_group, lookup_pair, hk]
        · simp [set_in_group, lookup_group, hg]
      | cons p rest ih =>
        obtain ⟨g0, pairs⟩ := p
        by_cases h : g0 = g
        · subst h
          by_cases hg : g0 = g'
          · subst hg
            have hk : k' ≠ k := fun e => hne ⟨rfl, by rw [e]⟩
            simp [set_in_group, lookup_group, lookup_pair_set_pair_other _ _ _ _ hk]
          · simp [set_in_group, lookup_group, hg]
        · by_cases hg : g0 = g'
          · subst hg
            simp [set_in_group, lookup_group, h]
          · simp [set_in_group, lookup_group, h, hg]
            exact ih

/-- A removed key is not found afterwards. -/
theorem get_value_remove_same (kf : GKeyFile) (g k : String) :
    g_key_file_get_value (g_key_file_remove_key kf (some g) (some k)) (some g) (some k) =
      none := by
  simp only [g_key_file_get_value, g_key_file_remove_key]
  induction kf with
  | nil => simp [remove_in_group, lookup_group]
  | cons p rest ih =>
    obtain ⟨g0, pairs⟩ := p
    by_cases h : g0 = g
    · simp [remove_in_group, lookup_group, h, lookup_pair_remove_pair_same]
    · simp [remove_in_group, lookup_group, h]
      exact ih

/-- Removing one (group, key) leaves every other slot as it was. -/
theorem get_value_remove_other (kf : GKeyFile) (g k : String)
    (group key : Option String) (hne : ¬ (group = some g ∧ key = some k)) :
    g_key_file_get_value (g_key_file_remove_key kf (some g) (some k)) group key =
      g_key_file_get_value kf group key := by
  cases group with
  | none => simp [g_key_file_get_value]
  | some g' =>
    cases key with
    | none => simp [g_key_file_get_value]
    | some k' =>
      simp only [g_key_file_get_value, g_key_file_remove_key]
      induction kf with
      | nil => simp [remove_in_group, lookup_group]
      | cons p rest ih =>
        obtain ⟨g0, pairs⟩ := p
        by_cases h : g0 = g
        · subst h
          by_cases hg : g0 = g'
          · subst hg
            have hk : k' ≠ k := fun e => hne ⟨rfl, by rw [e]⟩
            simp [remove_in_group, lookup_group, lookup_pair_remove_pair_other _ _ _ hk]
          · simp [remove_in_group, lookup_group, hg]
        · by_cases hg : g0 = g'
          · subst hg
            simp [remove_in_group, lookup_group, h]
          · simp [remove_in_group, lookup_group, h, hg]
            exact ih

/-! ## preferences.c : lemmas on raw values -/

theorem digit_char_toNat (d : Nat) (hd : d < 10) : (digit_char d).toNat = 48 + d := by
  interval_cases d <;> rfl

theorem digit_char_is_digit (d : Nat) (hd : d < 10) :
    '0' ≤ digit_char d ∧ digit_char d ≤ '9' := by
  interval_cases d <;> decide

theorem take_digits_append_digit (acc : Nat) (cs : List Char) (n d : Nat)
    (hd : d < 10) (h : take_digits acc cs = (n, [])) :
    take_digits acc (cs ++ [digit_char d]) = (n * 10 + d, []) := by
  induction cs generalizing acc with
  | nil =>
    simp only [take_digits, Prod.mk.injEq, and_true] at h
    subst h
    simp [take_digits, digit_char_is_digit d hd, digit_char_toNat d hd]
  | cons c rest ih =>
    by_cases hc : '0' ≤ c ∧ c ≤ '9'
    · simp only [take_digits, hc, and_self, if_true] at h
      simp only [List.cons_append, take_digits, hc, and_self, if_true]
      exact ih _ h
    · simp [take_digits, hc] at h

theorem take_digits_print_nat (fuel n : Nat) (hfuel : n < fuel) :
    take_digits 0 (print_nat fuel n) = (n, []) := by
  induction fuel generalizing n with
  | zero => omega
  | succ fuel ih =>
    by_cases hn : n < 10
    · simp [print_nat, hn, take_digits, digit_char_is_digit n hn, digit_char_toNat n hn]
    · have hdiv : n / 10 < fuel := by omega
      have hmod : n % 10 < 10 := Nat.mod_lt _ (by decide)
      simp only [print_nat, hn, if_false]
      rw [take_digits_append_digit 0 _ _ _ hmod (ih _ hdiv)]
      simp
      omega

theorem print_nat_head_digit (fuel n : Nat) (hfuel : n < fuel) :
    ∃ c rest, print_nat fuel n = c :: rest ∧ '0' ≤ c ∧ c ≤ '9' := by
  induction fuel generalizing n with
  | zero => omega
  | succ fuel ih =>
    by_cases hn : n < 10
    · exact ⟨digit_char n, [], by simp [print_nat, hn], digit_char_is_digit n hn⟩
    · have hdiv : n / 10 < fuel := by omega
      obtain ⟨c, rest, hc, hdig⟩ := ih _ hdiv
      exact ⟨c, rest ++ [digit_char (n % 10)], by simp [print_nat, hn, hc], hdig⟩

theorem digit_not_special (c : Char) (h : '0' ≤ c ∧ c ≤ '9') :
    isspace c = false ∧ c ≠ '-' ∧ c ≠ '+' := by
  refine ⟨?_, ?_, ?_⟩
  · have h1 : c ≠ ' ' := by rintro rfl; exact absurd h.1 (by decide)
    have h2 : c ≠ '\t' := by rintro rfl; exact absurd h.1 (by decide)
    have h3 : c ≠ '\r' := by rintro rfl; exact absurd h.1 (by decide)
    have h4 : c ≠ '\n' := by rintro rfl; exact absurd h.1 (by decide)
    have h5 : c ≠ '\x0b' := by rintro rfl; exact absurd h.1 (by decide)
    have h6 : c ≠ '\x0c' := by rintro rfl; exact absurd h.1 (by decide)
    simp [isspace, h1, h2, h3, h4, h5, h6]
  · rintro rfl; exact absurd h.1 (by decide)
  · rintro rfl; exact absurd h.1 (by decide)

/-- What `strtol` reads from the text `printf("%d")` writes for an integer:
the integer, up to the end of the text. -/
theorem strtol_print_integer (v : Int) : strtol (print_integer v) = (v, []) := by
  have hround := take_digits_print_nat (v.natAbs + 1) v.natAbs (Nat.lt_succ_self _)
  obtain ⟨c, rest, hc, hdig⟩ :=
    print_nat_head_digit (v.natAbs + 1) v.natAbs (Nat.lt_succ_self _)
  obtain ⟨hws, hminus, hplus⟩ := digit_not_special c hdig
  rw [hc] at hround
  by_cases hneg : v < 0
  · have hback : -((v.natAbs : Nat) : Int) = v := by
      rw [Int.ofNat_natAbs_of_nonpos (le_of_lt hneg)]
      simp
    have hprint : print_integer v = '-' :: c :: rest := by
      simp [print_integer, hneg, hc]
    have hdrop : List.dropWhile isspace ('-' :: c :: rest) = '-' :: c :: rest :=
      List.dropWhile_cons_of_neg (by decide)
    rw [hprint]
    unfold strtol
    rw [hdrop]
    simp only [List.head?, List.tail, true_or, if_true, hdig, and_self, hround,
      decide_True]
    rw [hback]
  · have hback : ((v.natAbs : Nat) : Int) = v := Int.natAbs_of_nonneg (not_lt.mp hneg)
    have hprint : print_integer v = c :: rest := by
      simp [print_integer, hneg, hc]
    have hdrop : List.dropWhile isspace (c :: rest) = c :: rest :=
      List.dropWhile_cons_of_neg (by simp [hws])
    have h1 : ¬ (some c = some '-' ∨ some c = some '+') := by
      simp [hminus, hplus]
    have h2 : decide (some c = some '-') = false := by
      simp [hminus]
    rw [hprint]
    unfold strtol
    rw [hdrop]
    simp only [List.head?, h1, h2, if_false, hdig, and_self, if_true, hround]
    rw [hback]
    simp

/-- What `printf("%d")` writes for a `gint` is read back as that `gint`. -/
theorem parse_value_as_integer_print_integer (v : gint) (hv : is_gint v) :
    parse_value_as_integer (print_integer v) = some v := by
  have hne : print_integer v ≠ [] := by
    obtain ⟨c, rest, hc, _⟩ :=
      print_nat_head_digit (v.natAbs + 1) v.natAbs (Nat.lt_succ_self _)
    by_cases hneg : v < 0
    · simp [print_integer, hneg]
    · simp [print_integer, hneg, hc]
  unfold parse_value_as_integer
  rw [strtol_print_integer v]
  simp [hne, hv]

theorem parse_value_as_string_cons (c : Char) (rest : List Char) (h : c ≠ '\\') :
    parse_value_as_string (c :: rest) = c :: parse_value_as_string rest := by
  rw [parse_value_as_string.eq_def]
  simp [h]

theorem parse_value_as_string_escape (e : Char) (rest : List Char) :
    parse_value_as_string ('\\' :: e :: rest) =
      if e = 's' then ' ' :: parse_value_as_string rest
      else if e = 'n' then '\n' :: parse_value_as_string rest
      else if e = 't' then '\t' :: parse_value_as_string rest
      else if e = 'r' then '\r' :: parse_value_as_string rest
      else if e = '\\' then '\\' :: parse_value_as_string rest
      else '\\' :: e :: parse_value_as_string rest := by
  rw [parse_value_as_string.eq_def]
  simp

/-- Escaping a string and reading the raw value back gives the string. -/
theorem parse_value_as_string_parse_string_as_value (leading : Bool) (s : List Char) :
    parse_value_as_string (parse_string_as_value leading s) = s := by
  induction s generalizing leading with
  | nil => simp [parse_string_as_value, parse_value_as_string]
  | cons c rest ih =>
    by_cases h1 : c = ' '
    · subst h1
      cases leading
      · simp [parse_string_as_value, parse_value_as_string_cons, ih]
      · simp [parse_string_as_value, parse_value_as_string_escape, ih]
    · by_cases h2 : c = '\t'
      · subst h2
        cases leading
        · simp [parse_string_as_value, parse_value_as_string_cons, ih]
        · simp [parse_string_as_value, parse_value_as_string_escape, ih]
      · by_cases h3 : c = '\n'
        · subst h3
          simp [parse_string_as_value, parse_value_as_string_escape, ih]
        · by_cases h4 : c = '\r'
          · subst h4
            simp [parse_string_as_value, parse_value_as_string_escape, ih]
          · by_cases h5 : c = '\\'
            · subst h5
              simp [parse_string_as_value, parse_value_as_string_escape, ih]
            · simp [parse_string_as_value, h1, h2, h3, h4, h5,
                parse_value_as_string_cons c _ h5, ih]

theorem special_char_low (c : Char)
    (h : c = ' ' ∨ c = '\t' ∨ c = '\n' ∨ c = '\r' ∨ c = '\\') :
    1 ≤ c.toNat ∧ c.toNat ≤ 0x7F := by
  rcases h with h | h | h | h | h <;> subst h <;> decide

theorem parse_string_as_value_cons_other (leading : Bool) (c : Char) (rest : List Char)
    (hc : ¬ (1 ≤ c.toNat ∧ c.toNat ≤ 0x7F)) :
    parse_string_as_value leading (c :: rest) = c :: parse_string_as_value false rest := by
  have h1 : c ≠ ' ' := fun e => hc (special_char_low c (Or.inl e))
  have h2 : c ≠ '\t' := fun e => hc (special_char_low c (Or.inr (Or.inl e)))
  have h3 : c ≠ '\n' := fun e => hc (special_char_low c (Or.inr (Or.inr (Or.inl e))))
  have h4 : c ≠ '\r' :=
    fun e => hc (special_char_low c (Or.inr (Or.inr (Or.inr (Or.inl e)))))
  have h5 : c ≠ '\\' :=
    fun e => hc (special_char_low c (Or.inr (Or.inr (Or.inr (Or.inr e)))))
  simp [parse_string_as_value, h1, h2, h3, h4, h5]

/-- An escaped string starts with characters below 0x80, one or two of them,
when the string starts with one, and goes on with the escaped rest. -/
theorem parse_string_as_value_cons_low (leading : Bool) (c : Char) (rest : List Char)
    (hc : 1 ≤ c.toNat ∧ c.toNat ≤ 0x7F) :
    ∃ (c' : Char) (leading' : Bool), 1 ≤ c'.toNat ∧ c'.toNat ≤ 0x7F ∧
      (parse_string_as_value leading (c :: rest) =
          c' :: parse_string_as_value leading' rest ∨
        ∃ e : Char, 1 ≤ e.toNat ∧ e.toNat ≤ 0x7F ∧
          parse_string_as_value leading (c :: rest) =
            c' :: e :: parse_string_as_value leading' rest) := by
  by_cases h1 : c = ' '
  · subst h1
    cases leading
    · exact ⟨' ', false, by decide, by decide, Or.inl (by simp [parse_string_as_value])⟩
    · exact ⟨'\\', true, by decide, by decide,
        Or.inr ⟨'s', by decide, by decide, by simp [parse_string_as_value]⟩⟩
  · by_cases h2 : c = '\t'
    · subst h2
      cases leading
      · exact ⟨'\t', false, by decide, by decide,
          Or.inl (by simp [parse_string_as_value])⟩
      · exact ⟨'\\', true, by decide, by decide,
          Or.inr ⟨'t', by decide, by decide, by simp [parse_string_as_value]⟩⟩
    · by_cases h3 : c = '\n'
      · subst h3
        exact ⟨'\\', leading, by decide, by decide,
          Or.inr ⟨'n', by decide, by decide, by simp [parse_string_as_value]⟩⟩
      · by_cases h4 : c = '\r'
        · subst h4
          exact ⟨'\\', leading, by decide, by decide,
            Or.inr ⟨'r', by decide, by decide, by simp [parse_string_as_value]⟩⟩
        · by_cases h5 : c = '\\'
          · subst h5
            exact ⟨'\\', leading, by decide, by decide,
              Or.inr ⟨'\\', by decide, by decide, by simp [parse_string_as_value]⟩⟩
          · exact ⟨c, false, hc.1, hc.2,
              Or.inl (by simp [parse_string_as_value, h1, h2, h3, h4, h5])⟩

theorem utf8_lead_low (b : Nat) (hb : 1 ≤ b ∧ b ≤ 0x7F) : utf8_lead b = some (0, 0, 0) := by
  simp [utf8_lead, hb]

theorem utf8_lead_state (b need lo hi : Nat) (h : utf8_lead b = some (need, lo, hi)) :
    need = 0 ∨ 0x80 ≤ lo := by
  unfold utf8_lead at h
  split_ifs at h <;>
    (simp only [Option.some.injEq, Prod.mk.injEq] at h
     obtain ⟨rfl, rfl, rfl⟩ := h
     simp)

theorem utf8_walk_low (lo hi : Nat) (c : Char) (rest : List Char)
    (hc : 1 ≤ c.toNat ∧ c.toNat ≤ 0x7F) :
    utf8_walk 0 lo hi (c :: rest) = utf8_walk 0 0 0 rest := by
  simp [utf8_walk, utf8_lead_low c.toNat hc]

theorem utf8_walk_tail_low (need lo hi : Nat) (c : Char) (rest : List Char)
    (hneed : need ≠ 0) (hlo : 0x80 ≤ lo) (hc : c.toNat ≤ 0x7F) :
    utf8_walk need lo hi (c :: rest) = false := by
  have h : ¬ (lo ≤ c.toNat ∧ c.toNat ≤ hi) := by omega
  simp [utf8_walk, hneed, h]

/-- Escaping does not change what the UTF-8 check says. -/
theorem utf8_walk_parse_string_as_value (s : List Char) (need lo hi : Nat)
    (leading : Bool) (hstate : need = 0 ∨ 0x80 ≤ lo) :
    utf8_walk need lo hi (parse_string_as_value leading s) = utf8_walk need lo hi s := by
  induction s generalizing need lo hi leading with
  | nil => simp [parse_string_as_value]
  | cons c rest ih =>
    by_cases hlow : 1 ≤ c.toNat ∧ c.toNat ≤ 0x7F
    · obtain ⟨c', leading', hc1, hc2, hform⟩ :=
        parse_string_as_value_cons_low leading c rest hlow
      by_cases hneed : need = 0
      · subst hneed
        rw [utf8_walk_low lo hi c rest hlow]
        rcases hform with heq | ⟨e, he1, he2, heq⟩
        · rw [heq, utf8_walk_low lo hi c' _ ⟨hc1, hc2⟩]
          exact ih 0 0 0 leading' (Or.inl rfl)
        · rw [heq, utf8_walk_low lo hi c' _ ⟨hc1, hc2⟩, utf8_walk_low 0 0 e _ ⟨he1, he2⟩]
          exact ih 0 0 0 leading' (Or.inl rfl)
      · have hlo : 0x80 ≤ lo := hstate.resolve_left hneed
        rw [utf8_walk_tail_low need lo hi c rest hneed hlo hlow.2]
        rcases hform with heq | ⟨e, he1, he2, heq⟩
        · rw [heq, utf8_walk_tail_low need lo hi c' _ hneed hlo hc2]
        · rw [heq, utf8_walk_tail_low need lo hi c' _ hneed hlo hc2]
    · rw [parse_string_as_value_cons_other leading c rest hlow]
      by_cases hneed : need = 0
      · subst hneed
        cases hlead : utf8_lead c.toNat with
        | none => simp [utf8_walk, hlead]
        | some state =>
          obtain ⟨n, l, h⟩ := state
          simp only [utf8_walk, hlead, if_true]
          exact ih n l h false (utf8_lead_state _ _ _ _ hlead)
      · simp only [utf8_walk, hneed, if_false]
        split_ifs
        · exact ih _ _ _ false (Or.inr (le_refl _))
        · rfl

theorem parse_value_as_boolean_true : parse_value_as_boolean "true" = some TRUE := by
  decide

theorem parse_value_as_boolean_false : parse_value_as_boolean "false" = some FALSE := by
  decide

/-! ## preferences.c : lemmas on the functions -/

theorem save_prefs_prefs (st : Prefs) (written : Bool) :
    (_save_prefs st written).prefs = st.prefs := by
  cases written <;> rfl

theorem save_prefs_log_maxsize (st : Prefs) (written : Bool) :
    (_save_prefs st written).log_maxsize = st.log_maxsize := by
  cases written <;> rfl

/-- `prefs_get_boolean` looks at nothing but the slot of the preference. -/
theorem prefs_get_boolean_congr (st st' : Prefs) (p : preference_t)
    (h : g_key_file_get_value st'.prefs (_get_group p) (_get_key p) =
      g_key_file_get_value st.prefs (_get_group p) (_get_key p)) :
    prefs_get_boolean st' p = prefs_get_boolean st p := by
  simp only [prefs_get_boolean, g_key_file_has_key, g_key_file_get_boolean, h]

/-- `prefs_get_string` looks at nothing but the slot of the preference. -/
theorem prefs_get_string_congr (st st' : Prefs) (p : preference_t)
    (h : g_key_file_get_value st'.prefs (_get_group p) (_get_key p) =
      g_key_file_get_value st.prefs (_get_group p) (_get_key p)) :
    prefs_get_string st' p = prefs_get_string st p := by
  simp only [prefs_get_string, g_key_file_has_key, g_key_file_get_string, h]

/-- `g_key_file_get_integer` looks at nothing but its slot. -/
theorem g_key_file_get_integer_congr (kf kf' : GKeyFile) (group key : Option String)
    (h : g_key_file_get_value kf' group key = g_key_file_get_value kf group key) :
    g_key_file_get_integer kf' group key = g_key_file_get_integer kf group key := by
  simp only [g_key_file_get_integer, g_key_file_get_integer_err, h]

theorem recognised_slot (p : preference_t) (hp : recognised p = true) :
    ∃ g k, _get_group p = some g ∧ _get_key p = some k := by
  cases p <;> first | exact ⟨_, _, rfl, rfl⟩ | simp [recognised] at hp

/-- No two preferences share a field name. -/
theorem get_key_injective (p q : preference_t) (k : String)
    (hp : _get_key p = some k) (hq : _get_key q = some k) : p = q := by
  cases p <;> cases q <;> simp [_get_key] at hp hq ⊢ <;>
    (subst hp; exact absurd hq (by decide))

/-- The value read back after `g_key_file_set_integer`. -/
theorem get_integer_set_integer (kf : GKeyFile) (g k : String) (v : gint)
    (hv : is_gint v) :
    g_key_file_get_integer (g_key_file_set_integer kf (some g) (some k) v)
      (some g) (some k) = v := by
  simp [g_key_file_get_integer, g_key_file_get_integer_err, g_key_file_set_integer,
    get_value_set_same, parse_value_as_integer_print_integer v hv]

/-- What `g_key_file_get_string` reads after `g_key_file_set_string`: the
string when it is valid UTF-8, `NULL` otherwise. -/
theorem get_string_set_string (kf : GKeyFile) (g k : String) (s : String) :
    g_key_file_get_string (g_key_file_set_string kf (some g) (some k) s)
        (some g) (some k) =
      (if g_utf8_validate s.data = true then some s else none) := by
  simp only [g_key_file_get_string, g_key_file_set_string, get_value_set_same,
    g_utf8_validate, utf8_walk_parse_string_as_value _ 0 0 0 true (Or.inl rfl),
    parse_value_as_string_parse_string_as_value]

/-! ## preferences.c : the claims -/

/-- C7 fails as stated. `prefs_set_string(PREF_THEME, "\xff")`, a string of the
one byte 0xFF, which is not valid UTF-8, stores the key, but
`prefs_get_string(PREF_THEME)` then returns the default NULL, not the
string: `g_key_file_get_string` gives NULL for it. -/
theorem prefs_string_round_trip_fails :
    g_key_file_has_key (prefs_set_string ⟨[], 0, none⟩ PREF_THEME (some "\xff") true).prefs
        (_get_group PREF_THEME) (_get_key PREF_THEME) = true ∧
      prefs_get_string (prefs_set_string ⟨[], 0, none⟩ PREF_THEME (some "\xff") true)
        PREF_THEME = none ∧
      prefs_get_string (prefs_set_string ⟨[], 0, none⟩ PREF_THEME (some "\xff") true)
        PREF_THEME ≠ some "\xff" := by
  decide

/-- C7 amended. For a recognised preference, `prefs_get_boolean` after
`prefs_set_boolean` with `TRUE` returns `TRUE` and with `FALSE` returns
`FALSE`; `prefs_get_string` after `prefs_set_string` with a non-NULL string
returns that string when it is valid UTF-8, and the table default of the
preference when it is not; whatever was stored before and whether or not the
file could be written. -/
theorem prefs_boolean_string_round_trip (st : Prefs) (p : preference_t)
    (written : Bool) (hp : recognised p = true) :
    prefs_get_boolean (prefs_set_boolean st p TRUE written) p = TRUE ∧
      prefs_get_boolean (prefs_set_boolean st p FALSE written) p = FALSE ∧
      (∀ s : String, g_utf8_validate s.data = true →
        prefs_get_string (prefs_set_string st p (some s) written) p = some s) ∧
      (∀ s : String, g_utf8_validate s.data = false →
        prefs_get_string (prefs_set_string st p (some s) written) p =
          _get_default_string p) := by
  obtain ⟨g, k, hg, hk⟩ := recognised_slot p hp
  refine ⟨?_, ?_, ?_, ?_⟩
  · have hraw : parse_boolean_as_value TRUE = "true" := by decide
    simp [prefs_get_boolean, prefs_set_boolean, save_prefs_prefs, hg, hk,
      g_key_file_has_key, g_key_file_get_boolean, g_key_file_set_boolean,
      get_value_set_same, hraw, parse_value_as_boolean_true]
  · have hraw : parse_boolean_as_value FALSE = "false" := by decide
    simp [prefs_get_boolean, prefs_set_boolean, save_prefs_prefs, hg, hk,
      g_key_file_has_key, g_key_file_get_boolean, g_key_file_set_boolean,
      get_value_set_same, hraw, parse_value_as_boolean_false]
  · intro s hs
    have hget := get_string_set_string st.prefs g k s
    simp only [hs, if_true] at hget
    have hhas : g_key_file_has_key
        (g_key_file_set_string st.prefs (some g) (some k) s) (some g) (some k) = true := by
      simp [g_key_file_has_key, g_key_file_set_string, get_value_set_same]
    simp [prefs_get_string, prefs_set_string, save_prefs_prefs, hg, hk, hhas, hget]
  · intro s hs
    have hget := get_string_set_string st.prefs g k s
    simp only [hs] at hget
    have hhas : g_key_file_has_key
        (g_key_file_set_string st.prefs (some g) (some k) s) (some g) (some k) = true := by
      simp [g_key_file_has_key, g_key_file_set_string, get_value_set_same]
    simp [prefs_get_string, prefs_set_string, save_prefs_prefs, hg, hk, hhas, hget]

theorem prefs_boolean_string_round_trip_witness :
    recognised PREF_THEME = true ∧
      g_utf8_validate " a\\b\n caf\xc3\xa9".data = true ∧
      g_utf8_validate "caf\xe9".data = false ∧
      prefs_get_boolean
        (prefs_set_boolean ⟨[("ui", [("theme", "x")])], 0, none⟩ PREF_THEME TRUE true)
        PREF_THEME = TRUE ∧
      prefs_get_boolean
        (prefs_set_boolean ⟨[("ui", [("theme", "x")])], 0, none⟩ PREF_THEME FALSE true)
        PREF_THEME = FALSE ∧
      prefs_get_string
        (prefs_set_string ⟨[("ui", [("theme", "x")])], 0, none⟩ PREF_THEME
          (some " a\\b\n caf\xc3\xa9") true)
        PREF_THEME = some " a\\b\n caf\xc3\xa9" ∧
      prefs_get_string
        (prefs_set_string ⟨[("ui", [("theme", "x")])], 0, none⟩ PREF_THEME
          (some "caf\xe9") true)
        PREF_THEME = _get_default_string PREF_THEME :=
  have h := prefs_boolean_string_round_trip ⟨[("ui", [("theme", "x")])], 0, none⟩
    PREF_THEME true rfl
  ⟨rfl, by decide, by decide, h.1, h.2.1,
    h.2.2.1 " a\\b\n caf\xc3\xa9" (by decide), h.2.2.2 "caf\xe9" (by decide)⟩

/-- C8 fails as stated. `prefs_get_autoaway_time` after
`prefs_set_autoaway_time(0)` returns 15, not 0; and with the limits 64 and
1048580 for `PREFS_MIN_LOG_SIZE` and `PREFS_MAX_LOG_SIZE`,
`prefs_get_max_log_size` after `prefs_set_max_log_size(10)` returns 1048580,
not 10. -/
theorem prefs_integer_round_trip_fails :
    prefs_get_autoaway_time (prefs_set_autoaway_time ⟨[], 0, none⟩ 0 true) = 15 ∧
      prefs_get_autoaway_time (prefs_set_autoaway_time ⟨[], 0, none⟩ 0 true) ≠ 0 ∧
      prefs_get_max_log_size 64 1048580 (prefs_set_max_log_size ⟨[], 0, none⟩ 10 true) =
        1048580 ∧
      prefs_get_max_log_size 64 1048580 (prefs_set_max_log_size ⟨[], 0, none⟩ 10 true) ≠
        10 := by
  decide

/-- C8 amended. For every `gint` value `V`: the getters of gone,
notify_remind, priority, reconnect and autoping return `V` after their setter
was called with `V`; `prefs_get_autoaway_time` returns `V` when `V` is not 0
and 15 when it is 0; `prefs_get_max_log_size` returns `V` when `V` is at
least `PREFS_MIN_LOG_SIZE` and `PREFS_MAX_LOG_SIZE` otherwise. -/
theorem prefs_integer_round_trip (st : Prefs) (V : gint) (written : Bool)
    (min_log_size max_log_size : gint) (hV : is_gint V) :
    prefs_get_gone (prefs_set_gone st V written) = V ∧
      prefs_get_notify_remind (prefs_set_notify_remind st V written) = V ∧
      prefs_get_priority (prefs_set_priority st V written) = V ∧
      prefs_get_reconnect (prefs_set_reconnect st V written) = V ∧
      prefs_get_autoping (prefs_set_autoping st V written) = V ∧
      prefs_get_autoaway_time (prefs_set_autoaway_time st V written) =
        (if V = 0 then 15 else V) ∧
      prefs_get_max_log_size min_log_size max_log_size
          (prefs_set_max_log_size st V written) =
        (if V < min_log_size then max_log_size else V) := by
  refine ⟨?_, ?_, ?_, ?_, ?_, ?_, ?_⟩
  · simp [prefs_get_gone, prefs_set_gone, save_prefs_prefs,
      get_integer_set_integer _ _ _ V hV]
  · simp [prefs_get_notify_remind, prefs_set_notify_remind, save_prefs_prefs,
      get_integer_set_integer _ _ _ V hV]
  · simp [prefs_get_priority, prefs_set_priority, save_prefs_prefs,
      get_integer_set_integer _ _ _ V hV]
  · simp [prefs_get_reconnect, prefs_set_reconnect, save_prefs_prefs,
      get_integer_set_integer _ _ _ V hV]
  · simp [prefs_get_autoping, prefs_set_autoping, save_prefs_prefs,
      get_integer_set_integer _ _ _ V hV]
  · simp [prefs_get_autoaway_time, prefs_set_autoaway_time, save_prefs_prefs,
      get_integer_set_integer _ _ _ V hV]
  · simp [prefs_get_max_log_size, prefs_set_max_log_size, save_prefs_log_maxsize]

theorem prefs_integer_round_trip_witness :
    is_gint (-120) ∧
      prefs_get_gone (prefs_set_gone ⟨[], 0, none⟩ (-120) true) = -120 ∧
      prefs_get_autoaway_time (prefs_set_autoaway_time ⟨[], 0, none⟩ (-120) true) =
        (if (-120 : gint) = 0 then 15 else -120) ∧
      prefs_get_max_log_size 64 1048580 (prefs_set_max_log_size ⟨[], 0, none⟩ (-120) true) =
        (if (-120 : gint) < 64 then 1048580 else -120) :=
  have h := prefs_integer_round_trip ⟨[], 0, none⟩ (-120) true 64 1048580 (by decide)
  ⟨by decide, h.1, h.2.2.2.2.2.1, h.2.2.2.2.2.2⟩

/-- C9. When the slot of a preference is absent, `prefs_get_boolean` returns
`_get_default_boolean` of it (`TRUE` for `PREF_STATUSES` and
`PREF_AUTOAWAY_CHECK`, `FALSE` otherwise) and `prefs_get_string` returns
`_get_default_string` of it (`"off"` for `PREF_AUTOAWAY_MODE`, `NULL`
otherwise); when the slot holds a raw value that reads as a boolean,
`prefs_get_boolean` returns that boolean, and when it holds a raw value that
is valid UTF-8, `prefs_get_string` returns the string the raw value stands
for; a raw value that is not valid UTF-8 makes `prefs_get_string` return the
default. -/
theorem prefs_get_default_fallback (st : Prefs) (p : preference_t) :
    (g_key_file_get_value st.prefs (_get_group p) (_get_key p) = none →
        prefs_get_boolean st p = _get_default_boolean p ∧
          prefs_get_string st p = _get_default_string p) ∧
      _get_default_boolean p =
        (if p = PREF_STATUSES ∨ p = PREF_AUTOAWAY_CHECK then TRUE else FALSE) ∧
      _get_default_string p = (if p = PREF_AUTOAWAY_MODE then some "off" else none) ∧
      (∀ (raw : String) (b : gboolean),
        g_key_file_get_value st.prefs (_get_group p) (_get_key p) = some raw →
        parse_value_as_boolean raw = some b → prefs_get_boolean st p = b) ∧
      (∀ raw : String,
        g_key_file_get_value st.prefs (_get_group p) (_get_key p) = some raw →
        g_utf8_validate raw.data = true →
        prefs_get_string st p = some (String.mk (parse_value_as_string raw.data))) ∧
      (∀ raw : String,
        g_key_file_get_value st.prefs (_get_group p) (_get_key p) = some raw →
        g_utf8_validate raw.data = false →
        prefs_get_string st p = _get_default_string p) := by
  refine ⟨?_, ?_, ?_, ?_, ?_, ?_⟩
  · intro h
    simp [prefs_get_boolean, prefs_get_string, g_key_file_has_key, h]
  · cases p <;> simp [_get_default_boolean]
  · cases p <;> simp [_get_default_string]
  · intro raw b h hb
    simp [prefs_get_boolean, g_key_file_has_key, g_key_file_get_boolean, h, hb]
  · intro raw h hvalid
    simp [prefs_get_string, g_key_file_has_key, g_key_file_get_string, h, hvalid]
  · intro raw h hvalid
    simp [prefs_get_string, g_key_file_has_key, g_key_file_get_string, h, hvalid]

theorem prefs_get_default_fallback_witness :
    prefs_get_boolean ⟨[("ui", [("beep", "true")])], 0, none⟩ PREF_STATUSES = TRUE ∧
      prefs_get_string ⟨[("ui", [("beep", "true")])], 0, none⟩ PREF_AUTOAWAY_MODE =
        some "off" ∧
      prefs_get_boolean ⟨[("ui", [("beep", "true")])], 0, none⟩ PREF_BEEP = TRUE ∧
      prefs_get_string ⟨[("ui", [("theme", "\\sdark")])], 0, none⟩ PREF_THEME =
        some " dark" ∧
      prefs_get_string ⟨[("presence", [("autoaway.mode", "\xff")])], 0, none⟩
        PREF_AUTOAWAY_MODE = some "off" :=
  ⟨((prefs_get_default_fallback ⟨[("ui", [("beep", "true")])], 0, none⟩
      PREF_STATUSES).1 rfl).1,
    ((prefs_get_default_fallback ⟨[("ui", [("beep", "true")])], 0, none⟩
      PREF_AUTOAWAY_MODE).1 rfl).2,
    (prefs_get_default_fallback ⟨[("ui", [("beep", "true")])], 0, none⟩
      PREF_BEEP).2.2.2.1 "true" TRUE rfl (by decide),
    (prefs_get_default_fallback ⟨[("ui", [("theme", "\\sdark")])], 0, none⟩
      PREF_THEME).2.2.2.2.1 "\\sdark" rfl (by decide),
    (prefs_get_default_fallback ⟨[("presence", [("autoaway.mode", "\xff")])], 0, none⟩
      PREF_AUTOAWAY_MODE).2.2.2.2.2 "\xff" rfl (by decide)⟩

theorem slot_other (p q : preference_t) (hne : p ≠ q) (g k : String)
    (hk : _get_key p = some k) :
    ¬ (_get_group q = some g ∧ _get_key q = some k) :=
  fun h => hne (get_key_injective p q k hk h.2)

/-- Storing a raw value in the slot of `p` leaves the slot of any other
preference as it was. -/
theorem get_value_set_value_other_pref (kf : GKeyFile) (p q : preference_t)
    (hne : p ≠ q) (raw : String) :
    g_key_file_get_value (g_key_file_set_value kf (_get_group p) (_get_key p) raw)
        (_get_group q) (_get_key q) =
      g_key_file_get_value kf (_get_group q) (_get_key q) := by
  cases hg : _get_group p with
  | none => simp [g_key_file_set_value]
  | some g =>
    cases hk : _get_key p with
    | none => simp [g_key_file_set_value]
    | some k => exact get_value_set_other kf g k raw _ _ (slot_other p q hne g k hk)

/-- Removing the slot of `p` leaves the slot of any other preference as it
was. -/
theorem get_value_remove_key_other_pref (kf : GKeyFile) (p q : preference_t)
    (hne : p ≠ q) :
    g_key_file_get_value (g_key_file_remove_key kf (_get_group p) (_get_key p))
        (_get_group q) (_get_key q) =
      g_key_file_get_value kf (_get_group q) (_get_key q) := by
  cases hg : _get_group p with
  | none => simp [g_key_file_remove_key]
  | some g =>
    cases hk : _get_key p with
    | none => simp [g_key_file_remove_key]
    | some k => exact get_value_remove_other kf g k _ _ (slot_other p q hne g k hk)

/-- The field names of the integer settings are the field name of no
preference. -/
theorem get_key_ne_int_key (q : preference_t) (g k : String)
    (hk : k ∈ ["gone", "remind", "maxsize", "priority", "reconnect", "autoping",
      "autoaway.time"]) :
    ¬ (_get_group q = some g ∧ _get_key q = some k) := by
  rintro ⟨-, hq⟩
  cases q <;> simp [_get_key] at hq <;> (subst hq; revert hk; decide)

/-- An integer setter leaves the slot of every preference as it was. -/
theorem get_value_set_int_pref (i : int_setting) (st : Prefs) (V : gint)
    (written : Bool) (q : preference_t) :
    g_key_file_get_value (prefs_set_int i st V written).prefs (_get_group q) (_get_key q) =
      g_key_file_get_value st.prefs (_get_group q) (_get_key q) := by
  cases i <;>
    simp only [prefs_set_int, prefs_set_gone, prefs_set_notify_remind,
      prefs_set_max_log_size, prefs_set_priority, prefs_set_reconnect,
      prefs_set_autoping, prefs_set_autoaway_time, save_prefs_prefs,
      g_key_file_set_integer] <;>
    exact get_value_set_other _ _ _ _ _ _ (get_key_ne_int_key q _ _ (by decide))

/-- C10. Setting a preference `p` with `prefs_set_boolean` or
`prefs_set_string` (a string or NULL) changes neither `prefs_get_boolean` nor
`prefs_get_string` of any other preference `q`; an integer setter changes
neither of them for any preference, and changes the result of no integer
getter other than its own. -/
theorem prefs_no_collision (st : Prefs) (written : Bool)
    (min_log_size max_log_size : gint) :
    (∀ p q : preference_t, p ≠ q →
        (∀ b : gboolean,
          prefs_get_boolean (prefs_set_boolean st p b written) q = prefs_get_boolean st q ∧
          prefs_get_string (prefs_set_boolean st p b written) q = prefs_get_string st q) ∧
        (∀ v : Option String,
          prefs_get_boolean (prefs_set_string st p v written) q = prefs_get_boolean st q ∧
          prefs_get_string (prefs_set_string st p v written) q = prefs_get_string st q)) ∧
      (∀ (i : int_setting) (V : gint) (q : preference_t),
        prefs_get_boolean (prefs_set_int i st V written) q = prefs_get_boolean st q ∧
        prefs_get_string (prefs_set_int i st V written) q = prefs_get_string st q) ∧
      (∀ (i j : int_setting) (V : gint), i ≠ j →
        prefs_get_int min_log_size max_log_size j (prefs_set_int i st V written) =
          prefs_get_int min_log_size max_log_size j st) := by
  refine ⟨?_, ?_, ?_⟩
  · intro p q hpq
    constructor
    · intro b
      have h : g_key_file_get_value (prefs_set_boolean st p b written).prefs
          (_get_group q) (_get_key q) =
          g_key_file_get_value st.prefs (_get_group q) (_get_key q) := by
        simp only [prefs_set_boolean, save_prefs_prefs, g_key_file_set_boolean]
        exact get_value_set_value_other_pref _ p q hpq _
      exact ⟨prefs_get_boolean_congr _ _ q h, prefs_get_string_congr _ _ q h⟩
    · intro v
      have h : g_key_file_get_value (prefs_set_string st p v written).prefs
          (_get_group q) (_get_key q) =
          g_key_file_get_value st.prefs (_get_group q) (_get_key q) := by
        cases v with
        | none =>
          simp only [prefs_set_string, save_prefs_prefs]
          exact get_value_remove_key_other_pref _ p q hpq
        | some s =>
          simp only [prefs_set_string, save_prefs_prefs, g_key_file_set_string]
          exact get_value_set_value_other_pref _ p q hpq _
      exact ⟨prefs_get_boolean_congr _ _ q h, prefs_get_string_congr _ _ q h⟩
  · intro i V q
    have h := get_value_set_int_pref i st V written q
    exact ⟨prefs_get_boolean_congr _ _ q h, prefs_get_string_congr _ _ q h⟩
  · intro i j V hij
    cases i <;> cases j <;>
      first
      | exact absurd rfl hij
      | (simp only [prefs_get_int, prefs_set_int, prefs_set_gone, prefs_set_notify_remind,
          prefs_set_max_log_size, prefs_set_priority, prefs_set_reconnect,
          prefs_set_autoping, prefs_set_autoaway_time, prefs_get_gone,
          prefs_get_notify_remind, prefs_get_max_log_size, prefs_get_priority,
          prefs_get_reconnect, prefs_get_autoping, prefs_get_autoaway_time,
          save_prefs_prefs, save_prefs_log_maxsize, g_key_file_set_integer]
         try rw [g_key_file_get_integer_congr _ _ _ _
            (get_value_set_other _ _ _ _ _ _ (by decide))])

theorem prefs_no_collision_witness :
    PREF_BEEP ≠ PREF_FLASH ∧ int_setting.gone ≠ int_setting.autoaway_time ∧
      prefs_get_boolean
          (prefs_set_boolean ⟨[("ui", [("flash", "true")])], 0, none⟩ PREF_BEEP TRUE true)
          PREF_FLASH =
        prefs_get_boolean ⟨[("ui", [("flash", "true")])], 0, none⟩ PREF_FLASH ∧
      prefs_get_string
          (prefs_set_string ⟨[("ui", [("flash", "true")])], 0, none⟩ PREF_BEEP none true)
          PREF_FLASH =
        prefs_get_string ⟨[("ui", [("flash", "true")])], 0, none⟩ PREF_FLASH ∧
      prefs_get_int 64 1048580 int_setting.autoaway_time
          (prefs_set_int int_setting.gone ⟨[("ui", [("flash", "true")])], 0, none⟩ 7 true) =
        prefs_get_int 64 1048580 int_setting.autoaway_time
          ⟨[("ui", [("flash", "true")])], 0, none⟩ :=
  have h := prefs_no_collision ⟨[("ui", [("flash", "true")])], 0, none⟩ true 64 1048580
  ⟨by decide, by decide,
    ((h.1 PREF_BEEP PREF_FLASH (by decide)).1 TRUE).1,
    ((h.1 PREF_BEEP PREF_FLASH (by decide)).2 none).2,
    h.2.2 int_setting.gone int_setting.autoaway_time 7 (by decide)⟩

/-! ## The claims on the static table, malformed values and persistence -/

/-- C11. Every recognised preference has a group among "ui", "chatstates",
"notifications", "logging", "presence" and a field name; `_get_group` is
non-NULL exactly when `_get_key` is, which is exactly for the recognised
preferences; and two recognised preferences with the same group and the same
field name are the same preference. -/
theorem get_group_get_key_injection (p q : preference_t) :
    (recognised p = true →
        ∃ g k, _get_group p = some g ∧ _get_key p = some k ∧
          g ∈ ["ui", "chatstates", "notifications", "logging", "presence"]) ∧
      (_get_group p ≠ none ↔ _get_key p ≠ none) ∧
      (_get_group p ≠ none ↔ recognised p = true) ∧
      (recognised p = true → recognised q = true →
        _get_group p = _get_group q → _get_key p = _get_key q → p = q) := by
  refine ⟨?_, ?_, ?_, ?_⟩
  · intro hp
    cases p <;> first
      | exact ⟨_, _, rfl, rfl, by decide⟩
      | simp [recognised] at hp
  · cases p <;> simp [_get_group, _get_key]
  · cases p <;> simp [_get_group, recognised]
  · intro hp _ _ hk
    obtain ⟨g, k, _, hkp⟩ := recognised_slot p hp
    exact get_key_injective p q k hkp (by rw [← hk, hkp])

theorem get_group_get_key_injection_witness :
    recognised PREF_STATES = true ∧
      (∃ g k, _get_group PREF_STATES = some g ∧ _get_key PREF_STATES = some k ∧
        g ∈ ["ui", "chatstates", "notifications", "logging", "presence"]) ∧
      (_get_group PREF_STATES = _get_group PREF_STATES →
        _get_key PREF_STATES = _get_key PREF_STATES → PREF_STATES = PREF_STATES) :=
  have h := get_group_get_key_injection PREF_STATES PREF_STATES
  ⟨rfl, h.1 rfl, h.2.2.2 rfl rfl⟩

/-- When the slot of a preference holds a raw value that does not read as a
boolean, `prefs_get_boolean` returns `FALSE`, whatever the default is. -/
theorem prefs_get_boolean_malformed (st : Prefs) (p : preference_t) (raw : String)
    (hraw : g_key_file_get_value st.prefs (_get_group p) (_get_key p) = some raw)
    (hbad : parse_value_as_boolean raw = none) :
    prefs_get_boolean st p = FALSE := by
  simp [prefs_get_boolean, g_key_file_has_key, g_key_file_get_boolean, hraw, hbad]

/-- C12 fails on the code. With `statuses=maybe` in group `ui`, a value that
does not read as a boolean, `prefs_get_boolean(PREF_STATUSES)` returns `FALSE`
although `_get_default_boolean(PREF_STATUSES)` is `TRUE`: the result of
`g_key_file_get_boolean` is returned without a look at its error. -/
theorem prefs_get_boolean_malformed_statuses :
    parse_value_as_boolean "maybe" = none ∧
      _get_default_boolean PREF_STATUSES = TRUE ∧
      prefs_get_boolean ⟨[("ui", [("statuses", "maybe")])], 0, none⟩ PREF_STATUSES =
        FALSE ∧
      prefs_get_boolean ⟨[("ui", [("statuses", "maybe")])], 0, none⟩ PREF_STATUSES ≠
        _get_default_boolean PREF_STATUSES := by
  decide

/-- C13 fails as stated. When `g_file_set_contents` fails,
`prefs_set_boolean(PREF_BEEP, TRUE)` returns with `beep=true` in the store
and the file as it was, here missing. -/
theorem prefs_set_boolean_write_fails :
    (prefs_set_boolean ⟨[], 0, none⟩ PREF_BEEP TRUE false).prefs =
        [("ui", [("beep", "true")])] ∧
      (prefs_set_boolean ⟨[], 0, none⟩ PREF_BEEP TRUE false).file = none ∧
      (prefs_set_boolean ⟨[], 0, none⟩ PREF_BEEP TRUE false).file ≠
        some (g_key_file_to_data
          (prefs_set_boolean ⟨[], 0, none⟩ PREF_BEEP TRUE false).prefs) := by
  decide

/-- C13 amended. Every setter (`prefs_set_boolean`, `prefs_set_string` with a
string or NULL, and the seven integer setters) updates the store and then
saves: when `g_file_set_contents` succeeds, the file holds the serialisation
of the whole updated store; when it fails, the store is updated all the same
and the file is left as it was. -/
theorem prefs_setters_write_through (st : Prefs) :
    (∀ (p : preference_t) (b : gboolean),
        (prefs_set_boolean st p b true).file =
            some (g_key_file_to_data (prefs_set_boolean st p b true).prefs) ∧
          (prefs_set_boolean st p b false).prefs = (prefs_set_boolean st p b true).prefs ∧
          (prefs_set_boolean st p b false).file = st.file) ∧
      (∀ (p : preference_t) (v : Option String),
        (prefs_set_string st p v true).file =
            some (g_key_file_to_data (prefs_set_string st p v true).prefs) ∧
          (prefs_set_string st p v false).prefs = (prefs_set_string st p v true).prefs ∧
          (prefs_set_string st p v false).file = st.file) ∧
      (∀ (i : int_setting) (V : gint),
        (prefs_set_int i st V true).file =
            some (g_key_file_to_data (prefs_set_int i st V true).prefs) ∧
          (prefs_set_int i st V false).prefs = (prefs_set_int i st V true).prefs ∧
          (prefs_set_int i st V false).file = st.file) := by
  refine ⟨?_, ?_, ?_⟩
  · intro p b
    simp [prefs_set_boolean, _save_prefs]
  · intro p v
    cases v <;> simp [prefs_set_string, _save_prefs]
  · intro i V
    cases i <;>
      simp [prefs_set_int, prefs_set_gone, prefs_set_notify_remind,
        prefs_set_max_log_size, prefs_set_priority, prefs_set_reconnect,
        prefs_set_autoping, prefs_set_autoaway_time, _save_prefs]

/-- With `new` different from `TRUE` at entry and an intact list under the
name, not empty when the key is present, `event_listen` leaves the old list
followed by `func` under the name, and reaches `g_hash_table_insert` exactly
when there was no list. -/
theorem event_listen_appends (new : gboolean) (t : GHashTable) (name : String)
    (ptr : NamePtr) (func : EVENT_FUNC) (l : List EVENT_FUNC) (hnew : new ≠ TRUE)
    (hl : g_hash_table_lookup t name = .list l)
    (hkey : g_hash_table_contains t name = true → l ≠ []) :
    ∃ t', event_listen new t name ptr func = .ok t' ∧
      g_hash_table_lookup t' name = .list (l ++ [func]) ∧
      (event_listen_inserts new t name = true ↔ l = []) := by
  have hstep : event_listen new t name ptr func =
      .ok (store t name (.list (l ++ [func]))) := by
    rw [event_listen_eq new t name ptr func l hl]
    by_cases hnil : l = []
    · have habsent : ¬ g_hash_table_contains t name = true := fun h => hkey h hnil
      simp [hnil, habsent]
    · simp [hnil, hnew]
  refine ⟨_, hstep, lookup_store_same _ _ _, ?_⟩
  by_cases hnil : l = []
  · simp [event_listen_inserts, hl, hnil]
  · simp [event_listen_inserts, hl, hnil, hnew]

/-- C14 fails on the code. With listener 7 already under "x",
`event_listen("x", 8)` entered with `FALSE` in the uninitialised `new` leaves
the list 7, 8 and does not insert; entered with `TRUE` it does insert,
although "x" had a list, and the table is left with the released list: the
outcome on the reuse path depends on the value `new` holds. That is for a
`name` from `g_malloc`; with a string literal the call entered with `FALSE`
does the same, and the call entered with `TRUE` faults on the `g_free` of the
passed key. -/
theorem event_listen_reuse_depends_on_new :
    event_listen FALSE [("x", .list [7])] "x" .allocated 8 =
        .ok [("x", .list [7, 8])] ∧
      event_listen_inserts FALSE [("x", .list [7])] "x" = false ∧
      event_listen TRUE [("x", .list [7])] "x" .allocated 8 = .ok [("x", .dangling)] ∧
      event_listen_inserts TRUE [("x", .list [7])] "x" = true ∧
      event_listen FALSE [("x", .list [7])] "x" .not_allocated 8 =
        .ok [("x", .list [7, 8])] ∧
      event_listen TRUE [("x", .list [7])] "x" .not_allocated 8 =
        .error .invalid_free := by
  refine ⟨rfl, rfl, rfl, rfl, rfl, rfl⟩

/-- C15. For a recognised preference, after `prefs_set_string(p, NULL)` the
slot of `p` is absent from the store and `prefs_get_string(p)` returns
`_get_default_string(p)`, which is `"off"` for `PREF_AUTOAWAY_MODE` and NULL
otherwise, whatever was stored before and whether or not the file could be
written. -/
theorem prefs_set_string_null_resets (st : Prefs) (p : preference_t)
    (written : Bool) (hp : recognised p = true) :
    g_key_file_get_value (prefs_set_string st p none written).prefs
        (_get_group p) (_get_key p) = none ∧
      prefs_get_string (prefs_set_string st p none written) p = _get_default_string p ∧
      _get_default_string p = (if p = PREF_AUTOAWAY_MODE then some "off" else none) := by
  obtain ⟨g, k, hg, hk⟩ := recognised_slot p hp
  have hslot : g_key_file_get_value (prefs_set_string st p none written).prefs
      (_get_group p) (_get_key p) = none := by
    simp only [prefs_set_string, save_prefs_prefs, hg, hk]
    exact get_value_remove_same _ g k
  refine ⟨hslot, ?_, ?_⟩
  · simp [prefs_get_string, g_key_file_has_key, hslot]
  · cases p <;> simp [_get_default_string]

theorem prefs_set_string_null_resets_witness :
    recognised PREF_AUTOAWAY_MODE = true ∧
      g_key_file_get_value
          (prefs_set_string ⟨[("presence", [("autoaway.mode", "idle")])], 0, none⟩
            PREF_AUTOAWAY_MODE none true).prefs
          (_get_group PREF_AUTOAWAY_MODE) (_get_key PREF_AUTOAWAY_MODE) = none ∧
      prefs_get_string
          (prefs_set_string ⟨[("presence", [("autoaway.mode", "idle")])], 0, none⟩
            PREF_AUTOAWAY_MODE none true)
          PREF_AUTOAWAY_MODE = some "off" :=
  have h := prefs_set_string_null_resets
    ⟨[("presence", [("autoaway.mode", "idle")])], 0, none⟩ PREF_AUTOAWAY_MODE true rfl
  ⟨rfl, h.1, h.2.1⟩

/-- A `maxsize` followed by white space loads as the number: `prefs_load`
keeps 2000 for the raw values `2000 ` and `2000 bytes`. -/
theorem prefs_load_maxsize_trailing_space :
    (prefs_load [("logging", [("maxsize", "2000 ")])] none).log_maxsize = 2000 ∧
      (prefs_load [("logging", [("maxsize", "2000 bytes")])] none).log_maxsize = 2000 := by
  decide

/-- C16. `prefs_get_max_log_size` returns `log_maxsize` when it is at least
`PREFS_MIN_LOG_SIZE` and `PREFS_MAX_LOG_SIZE` otherwise; with
`PREFS_MIN_LOG_SIZE <= PREFS_MAX_LOG_SIZE` the result is never below
`PREFS_MIN_LOG_SIZE`; and with a positive `PREFS_MIN_LOG_SIZE`, after a
`prefs_load` that finds no well-formed `maxsize` in group `logging`
(`log_maxsize` reset to 0) the result is `PREFS_MAX_LOG_SIZE`. -/
theorem prefs_get_max_log_size_bounds (min_log_size max_log_size : gint) (st : Prefs) :
    prefs_get_max_log_size min_log_size max_log_size st =
        (if min_log_size ≤ st.log_maxsize then st.log_maxsize else max_log_size) ∧
      (min_log_size ≤ max_log_size →
        min_log_size ≤ prefs_get_max_log_size min_log_size max_log_size st) ∧
      (0 < min_log_size → ∀ (loaded : GKeyFile) (file : Option String),
        g_key_file_get_integer_err loaded (some "logging") (some "maxsize") = none →
        (prefs_load loaded file).log_maxsize = 0 ∧
          prefs_get_max_log_size min_log_size max_log_size (prefs_load loaded file) =
            max_log_size) := by
  refine ⟨?_, ?_, ?_⟩
  · unfold prefs_get_max_log_size
    by_cases h : st.log_maxsize < min_log_size
    · simp [h, not_le.mpr h]
    · simp [h, not_lt.mp h]
  · intro hle
    unfold prefs_get_max_log_size
    by_cases h : st.log_maxsize < min_log_size
    · simp [h, hle]
    · simp [h, not_lt.mp h]
  · intro hpos loaded file herr
    simp [prefs_load, herr, prefs_get_max_log_size, hpos]

theorem prefs_get_max_log_size_bounds_witness :
    (64 : gint) ≤ 1048580 ∧ (0 : gint) < 64 ∧
      prefs_get_max_log_size 64 1048580 ⟨[], 10, none⟩ =
        (if (64 : gint) ≤ 10 then 10 else 1048580) ∧
      (64 : gint) ≤ prefs_get_max_log_size 64 1048580 ⟨[], 10, none⟩ ∧
      prefs_get_max_log_size 64 1048580
          (prefs_load [("logging", [("maxsize", "lots")])] none) = 1048580 :=
  have h := prefs_get_max_log_size_bounds 64 1048580 ⟨[], 10, none⟩
  ⟨by decide, by decide, h.1, h.2.1 (by decide),
    (h.2.2 (by decide) [("logging", [("maxsize", "lots")])] none (by decide)).2⟩

end Profanity
